import Mathlib

/-!
# danspad-gui: device protocol, calibration store and profile codec

A shallow embedding of `src/main.c`.

* C `char` values are bytes, modelled as `Nat` (the code only compares them with
  `'\n'`, NUL and the digit range, so signedness of `char` never matters).
* C `int` values are modelled as `Int`; conversions to `int` wrap modulo `2^32`.
* A C string is the list of its bytes; the end of the list is the terminating NUL.
* An access outside a C array has no defined behaviour: the functions return
  `Except.error` with the offending `Fault` instead of a result.
* The serial port, `errno` and the commands written so far form the `World`.
-/

namespace Danspad

/-! ## Constants -/

/-- The macro `SENSORS_MAX`: number of entries of `thresholds` and `values`. -/
def SENSORS_MAX : Nat := 64

/-- The macro `SENSOR_MAX_VALUE`. -/
def SENSOR_MAX_VALUE : Int := 1023

/-- The largest `int`. -/
def INT_MAX : Nat := 2147483647

/-- The value `strtol` leaves in `errno` on overflow. -/
def ERANGE : Nat := 34

/-- The value a failed `fopen` leaves in `errno` (no such file). -/
def ENOENT : Nat := 2

/-- Size of the local arrays `report` and `buf` of `pad_read_parse_values`. -/
def REPORT_SIZE : Nat := 256

/-- The bytes of a string literal. -/
def bytes (s : String) : List Nat := s.toList.map Char.toNat

/-! ## Data model -/

/-- The part of `context_t` the protocol code works on: `sensors`, `thresholds[SENSORS_MAX]`
and `values[SENSORS_MAX]`.  Only the slots below `SENSORS_MAX` exist; every store is
bounds-checked by `storeAt`. -/
structure context where
  sensors : Nat
  thresholds : Nat → Int
  values : Nat → Int

/-- The array of `context_t` a `dest` pointer points into. -/
inductive Target where
  | values
  | thresholds
  deriving DecidableEq, Repr

/-- A non-NULL `int *dest`: an array of the context and an index into it. -/
structure Ptr where
  target : Target
  idx : Nat
  deriving DecidableEq, Repr

/-- Accesses without defined behaviour, and the exhaustion of the loop budget of the model. -/
inductive Fault where
  /-- store through `dest` at an index outside `values` / `thresholds` -/
  | destIndex (i : Int)
  /-- `report[i]` written outside the 256-byte line buffer -/
  | reportIndex (i : Int)
  /-- `buf[i]` written outside the 256-byte chunk buffer -/
  | bufIndex (i : Int)
  /-- comparison of a `signature` that `fread` did not fill -/
  | uninitialised
  /-- the iteration budget of a modelled loop ran out (never happens, see `parse_loop_fuel`) -/
  | fuel
  deriving DecidableEq, Repr

/-- One result of `sp_blocking_read_next`: a negative error code `-(k+1)`, or the bytes
placed in `buf` (their number is the return value; `[]` is a timeout). -/
inductive Read where
  | err (k : Nat)
  | data (bs : List Nat)
  deriving DecidableEq, Repr

/-- The return value of `sp_blocking_read_next`. -/
def Read.ret : Read → Int
  | Read.err k => -((k : Int) + 1)
  | Read.data bs => (bs.length : Int)

/-- Outcome of one `pad_serial_write_cmd`: both steps succeed, `sp_blocking_write` fails,
or `sp_drain` fails. -/
inductive WriteOutcome where
  | ok
  | writeFail
  | drainFail
  deriving DecidableEq, Repr

/-- Everything outside the context: `errno`, the scripted behaviour of the serial port
(results of the coming reads and writes; once a script is used up, reads time out and writes
succeed) and the log of the buffers handed to `sp_blocking_write`. -/
structure World where
  errno : Nat
  reads : List Read
  writes : List WriteOutcome
  sent : List (List Nat)
  deriving DecidableEq, Repr

/-- Slot `i` of an array replaced by `v`. -/
def setSlot (a : Nat → Int) (i : Nat) (v : Int) : Nat → Int :=
  fun j => if j = i then v else a j

/-- Slot `i` of the array `t` of the context replaced by `v`. -/
def storeSlot (ctx : context) (t : Target) (i : Nat) (v : Int) : context :=
  match t with
  | Target.values => { ctx with values := setSlot ctx.values i v }
  | Target.thresholds => { ctx with thresholds := setSlot ctx.thresholds i v }

/-- The store `*dest = value`: defined only inside the array. -/
def storeAt (ctx : context) (p : Ptr) (v : Int) : Except Fault context :=
  if p.idx < SENSORS_MAX then Except.ok (storeSlot ctx p.target p.idx v)
  else Except.error (Fault.destIndex p.idx)

/-- Conversion of an integer to `int` (wraps modulo `2^32`). -/
def toInt32 (v : Int) : Int := (v + 2147483648) % 4294967296 - 2147483648

/-! ## Report parsing -/

/-- Source: `is_digit`. -/
def is_digit (c : Nat) : Bool := decide (48 ≤ c) && decide (c ≤ 57)

/-- The digit loop of `strtol`: consumes the maximal run of decimal digits at the head of the
string, accumulating its value; returns the value and the rest (`end`). -/
def digitRun : List Nat → Nat → Nat × List Nat
  | [], acc => (acc, [])
  | c :: cs, acc => if is_digit c then digitRun cs (acc * 10 + (c - 48)) else (acc, c :: cs)

/-- The library call `strtol(report, &end, 10)` on a string that starts with a digit (the only
way the source calls it, so neither white space nor a sign is ever skipped).  `longMax` is
`LONG_MAX` of the platform.  Returns the value, `end` and the new `errno`: on overflow the
value is `LONG_MAX` and `errno` becomes `ERANGE`, otherwise `errno` is left as it was. -/
def strtol (longMax : Nat) (s : List Nat) (errno : Nat) : Int × List Nat × Nat :=
  let r := digitRun s 0
  if longMax < r.1 then ((longMax : Int), r.2, ERANGE) else ((r.1 : Int), r.2, errno)

/-- What `pad_parse_values` hands back: its return value, the context and `errno`. -/
structure Parsed where
  ret : Nat
  ctx : context
  errno : Nat

/-- The `while` loop of `pad_parse_values` (lines 48-67), with an iteration budget. -/
def parse_loop (longMax : Nat) :
    Nat → context → List Nat → Option Ptr → Nat → Nat → Nat → Except Fault Parsed
  | 0, _, _, _, _, _, _ => Except.error Fault.fuel
  | fuel + 1, ctx, report, dest, size, count, errno =>
    match report with
    | [] => Except.ok ⟨count, ctx, errno⟩
    | c :: rest =>
      if c = 0 ∨ c = 10 then Except.ok ⟨count, ctx, errno⟩
      else if is_digit c then
        let r := strtol longMax (c :: rest) errno
        let value := toInt32 r.1
        if r.2.2 ≠ 0 then Except.ok ⟨0, ctx, r.2.2⟩
        else if is_digit (r.2.1.headD 0) then Except.ok ⟨0, ctx, r.2.2⟩
        else
          match dest with
          | some p =>
            if size ≠ 0 then
              match storeAt ctx p value with
              | Except.ok ctx1 =>
                parse_loop longMax fuel ctx1 r.2.1 (some ⟨p.target, p.idx + 1⟩) (size - 1)
                  (count + 1) r.2.2
              | Except.error f => Except.error f
            else parse_loop longMax fuel ctx r.2.1 dest size (count + 1) r.2.2
          | none => parse_loop longMax fuel ctx r.2.1 dest size (count + 1) r.2.2
      else parse_loop longMax fuel ctx rest dest size count errno

/-- Source: `pad_parse_values`.  The return value is the `size_t` count converted to `int`;
the count is at most the length of the report, which the only caller takes from a 256-byte
buffer, so the conversion keeps the value. -/
def pad_parse_values (longMax : Nat) (ctx : context) (report : List Nat) (_dest : Option Ptr)
    (size : Nat) (errno : Nat) : Except Fault Parsed :=
  match report with
  | [] => Except.ok ⟨0, ctx, errno⟩
  | c :: rest =>
    if c = 118 then
      parse_loop longMax (rest.length + 1) ctx rest (some ⟨Target.values, 0⟩) size 0 errno
    else if c = 116 then
      parse_loop longMax (rest.length + 1) ctx rest (some ⟨Target.thresholds, 0⟩) size 0 errno
    else Except.ok ⟨0, ctx, errno⟩

/-- Return value of a parse, when it has one. -/
def retOf (r : Except Fault Parsed) : Option Nat :=
  match r with
  | Except.ok p => some p.ret
  | Except.error _ => none

/-- The first `k` entries of `values` after a parse, when it has a result. -/
def valuesOf (r : Except Fault Parsed) (k : Nat) : Option (List Int) :=
  match r with
  | Except.ok p => some ((List.range k).map p.ctx.values)
  | Except.error _ => none

/-- The first `k` entries of `thresholds` after a parse, when it has a result. -/
def thresholdsOf (r : Except Fault Parsed) (k : Nat) : Option (List Int) :=
  match r with
  | Except.ok p => some ((List.range k).map p.ctx.thresholds)
  | Except.error _ => none

/-- A context with `n` sensors whose arrays hold the given entries (0 elsewhere). -/
def mkContext (n : Nat) (th vs : List Int) : context :=
  ⟨n, fun i => th.getD i 0, fun i => vs.getD i 0⟩

/-! ## Serial session -/

/-- What the functions that talk to the port hand back: return value, context and world. -/
structure Outcome where
  ret : Int
  ctx : context
  w : World

/-- The bytes a read placed in `buf`. -/
def Read.bytes : Read → List Nat
  | Read.err _ => []
  | Read.data bs => bs

/-- Result of the `for` loop over one chunk (lines 94-105): a complete line was found (the
report, `'\n'` included), the chunk ended first (the bytes gathered so far), or the line was
too long ("not a valid report"). -/
inductive Scan where
  | line (report : List Nat)
  | more (acc : List Nat)
  | invalid
  deriving DecidableEq, Repr

/-- The `for` loop of `pad_read_parse_values` over the bytes of `buf`; `acc` is
`report[0..count)`, so `count = acc.length`. -/
def scan_chunk : List Nat → List Nat → Except Fault Scan
  | [], acc => Except.ok (Scan.more acc)
  | b :: bs, acc =>
    if b = 10 then
      if acc.length < REPORT_SIZE then Except.ok (Scan.line (acc ++ [10]))
      else Except.error (Fault.reportIndex acc.length)
    else if acc.length < REPORT_SIZE then scan_chunk bs (acc ++ [b])
    else Except.ok Scan.invalid

/-- The `for (;;)` loop of `pad_read_parse_values`, one iteration per scripted read. -/
def read_loop (longMax : Nat) (ctx : context) (w : World) :
    List Read → List Nat → Except Fault Outcome
  | [], _ => Except.ok ⟨0, ctx, { w with reads := [] }⟩
  | r :: rs, acc =>
    if 0 ≤ r.ret ∧ r.ret < REPORT_SIZE then
      if r.ret = 0 then Except.ok ⟨0, ctx, { w with reads := rs }⟩
      else if r.ret < 0 then Except.ok ⟨0, ctx, { w with reads := rs }⟩
      else
        match scan_chunk r.bytes acc with
        | Except.ok (Scan.line report) =>
          match pad_parse_values longMax ctx report none ctx.sensors w.errno with
          | Except.ok p => Except.ok ⟨p.ret, p.ctx, { w with reads := rs, errno := p.errno }⟩
          | Except.error f => Except.error f
        | Except.ok (Scan.more acc1) => read_loop longMax ctx w rs acc1
        | Except.ok Scan.invalid => Except.ok ⟨0, ctx, { w with reads := rs }⟩
        | Except.error f => Except.error f
    else Except.error (Fault.bufIndex r.ret)

/-- Source: `pad_read_parse_values`. -/
def pad_read_parse_values (longMax : Nat) (ctx : context) (w : World) : Except Fault Outcome :=
  read_loop longMax ctx w w.reads []

/-- Source: `pad_serial_write_cmd`; returns the error code and the new world. -/
def pad_serial_write_cmd (w : World) (cmd : List Nat) : Int × World :=
  match w.writes with
  | [] => (0, { w with sent := w.sent ++ [cmd] })
  | WriteOutcome.ok :: os => (0, { w with writes := os, sent := w.sent ++ [cmd] })
  | WriteOutcome.writeFail :: os => (1, { w with writes := os, sent := w.sent ++ [cmd] })
  | WriteOutcome.drainFail :: os => (2, { w with writes := os, sent := w.sent ++ [cmd] })

/-- Source: `cmd_values`. -/
def cmd_values : List Nat := [118, 10]

/-- Source: `cmd_thresholds`. -/
def cmd_thresholds : List Nat := [116, 10]

/-- Source: `pad_get_values`. -/
def pad_get_values (longMax : Nat) (ctx : context) (w : World) (is_thresholds : Bool) :
    Except Fault Outcome :=
  let cmd := if is_thresholds then cmd_thresholds else cmd_values
  let e := pad_serial_write_cmd w cmd
  if e.1 ≠ 0 then Except.ok ⟨0, ctx, e.2⟩
  else pad_read_parse_values longMax ctx e.2

/-- The conversion `%d` of `snprintf`. -/
def fmt_d (v : Int) : List Nat :=
  if v < 0 then 45 :: (Nat.toDigits 10 (-v).toNat).map Char.toNat
  else (Nat.toDigits 10 v.toNat).map Char.toNat

/-- The text `snprintf(buf, sizeof(buf), "%d %d\n", sensor, value)` produces (at most 24
bytes, so it always fits the 64-byte buffer). -/
def set_command (sensor value : Int) : List Nat :=
  fmt_d sensor ++ [32] ++ fmt_d value ++ [10]

/-- Lines 142-143 of `pad_set_threshold`: the two conditional assignments to `value`. -/
def clamp_value (value : Int) : Int :=
  let value := if value < 0 then 0 else value
  if value > SENSOR_MAX_VALUE then SENSOR_MAX_VALUE else value

/-- Source: `pad_set_threshold`. -/
def pad_set_threshold (longMax : Nat) (ctx : context) (w : World) (sensor value : Int) :
    Except Fault Outcome :=
  let value := clamp_value value
  if 0 ≤ sensor ∧ sensor < SENSORS_MAX then
    let ctx1 : context := storeSlot ctx Target.thresholds sensor.toNat value
    let e := pad_serial_write_cmd w (set_command sensor value)
    if e.1 ≠ 0 then Except.ok ⟨1, ctx1, e.2⟩
    else
      match pad_read_parse_values longMax ctx1 e.2 with
      | Except.ok r => Except.ok ⟨0, r.ctx, r.w⟩
      | Except.error f => Except.error f
  else Except.error (Fault.destIndex sensor)

/-! ## Profile files -/

/-- The four bytes of a `uint32_t` in memory (little-endian host). -/
def le32 (n : Nat) : List Nat :=
  [n % 256, n / 256 % 256, n / 65536 % 256, n / 16777216 % 256]

/-- The `uint32_t` four bytes in memory stand for (little-endian host). -/
def fromLE32 (bs : List Nat) : Nat :=
  bs.getD 0 0 + 256 * bs.getD 1 0 + 65536 * bs.getD 2 0 + 16777216 * bs.getD 3 0

/-- Conversion of an integer to `uint32_t`. -/
def toUInt32 (v : Int) : Nat := (v % 4294967296).toNat

/-- The 8 bytes of the arrays `expected` and `signature`. -/
def signature : List Nat := bytes "danspad "

/-- The first loop of `profile_load` (lines 347-354): `n` reads of 4 bytes each; `none` when
one of them comes back short. -/
def read_thresholds : Nat → List Nat → Option (List Nat)
  | 0, _ => some []
  | n + 1, f =>
    if (f.take 4).length ≠ 4 then none
    else (read_thresholds n (f.drop 4)).map (fun ts => fromLE32 (f.take 4) :: ts)

/-- The second loop of `profile_load` (lines 359-361): one `pad_set_threshold` per stored
threshold, the return values ignored. -/
def set_loop (longMax : Nat) : context → World → Int → List Nat → Except Fault (context × World)
  | ctx, w, _, [] => Except.ok (ctx, w)
  | ctx, w, i, t :: ts =>
    match pad_set_threshold longMax ctx w i (toInt32 t) with
    | Except.ok r => set_loop longMax r.ctx r.w (i + 1) ts
    | Except.error f => Except.error f

/-- Source: `profile_load`.  `profile` is `none` for a NULL path, `some none` when `fopen`
fails, and `some (some file)` for a file with the given content. -/
def profile_load (longMax : Nat) (ctx : context) (w : World)
    (profile : Option (Option (List Nat))) : Except Fault Outcome :=
  match profile with
  | none => Except.ok ⟨0, ctx, w⟩
  | some none => Except.ok ⟨2, ctx, { w with errno := ENOENT }⟩
  | some (some file) =>
    if file.length < 8 then Except.error Fault.uninitialised
    else if file.take 8 ≠ signature then Except.ok ⟨3, ctx, w⟩
    else
      let f1 := file.drop 8
      if (f1.take 4).length ≠ 4 then Except.ok ⟨4, ctx, w⟩
      else
        let sensor_count := fromLE32 (f1.take 4)
        if sensor_count ≠ ctx.sensors then Except.ok ⟨5, ctx, w⟩
        else
          match read_thresholds (min sensor_count SENSORS_MAX) (f1.drop 4) with
          | none => Except.ok ⟨6, ctx, w⟩
          | some thresholds =>
            match set_loop longMax ctx w 0 thresholds with
            | Except.ok r => Except.ok ⟨0, r.1, r.2⟩
            | Except.error f => Except.error f

/-- Source: `profile_save`.  `profile` is `none` for a NULL path, `some false` when `fopen`
fails and `some true` when it succeeds; returns the error code, the bytes written to the file
(if it was opened) and the new `errno`. -/
def profile_save (ctx : context) (errno : Nat) (profile : Option Bool) :
    Int × Option (List Nat) × Nat :=
  match profile with
  | none => (0, none, errno)
  | some false => (2, none, ENOENT)
  | some true =>
    let sensor_count := ctx.sensors % 4294967296
    (0, some (signature ++ le32 sensor_count ++
      (List.range (min sensor_count SENSORS_MAX)).flatMap
        (fun i => le32 (toUInt32 (ctx.thresholds i)))), errno)

/-! ## Start-up -/

/-- The zero-initialised `context_t ctx = {0}` of `main`. -/
def ctx0 : context := ⟨0, fun _ => 0, fun _ => 0⟩

/-- Lines 414-420 of `main`: the first `pad_get_values` fixes `ctx.sensors`; `none` when
`main` exits with code 3 because the count is zero. -/
def main_startup (longMax : Nat) (w : World) : Except Fault (Option context × World) :=
  match pad_get_values longMax ctx0 w false with
  | Except.ok r =>
    if r.ret ≠ 0 then Except.ok (some { r.ctx with sensors := r.ret.toNat }, r.w)
    else Except.ok (none, r.w)
  | Except.error f => Except.error f

/-! ## Observations used in the statements -/

/-- Return value, when there is a result. -/
def Outcome.retOf (r : Except Fault Outcome) : Option Int :=
  match r with
  | Except.ok o => some o.ret
  | Except.error _ => none

/-- The fault, when there is no result. -/
def faultOf {α : Type} (r : Except Fault α) : Option Fault :=
  match r with
  | Except.ok _ => none
  | Except.error f => some f

/-- The first `k` thresholds, when there is a result. -/
def Outcome.thresholdsOf (r : Except Fault Outcome) (k : Nat) : Option (List Int) :=
  match r with
  | Except.ok o => some ((List.range k).map o.ctx.thresholds)
  | Except.error _ => none

/-- The commands handed to the port, when there is a result. -/
def Outcome.sentOf (r : Except Fault Outcome) : Option (List (List Nat)) :=
  match r with
  | Except.ok o => some o.w.sent
  | Except.error _ => none

/-- A port on which nothing arrives and every write succeeds. -/
def quiet (errno : Nat) : World := ⟨errno, [], [], []⟩

/-- The tag byte of the report the next `pad_read_parse_values` will assemble: the first byte
the next read delivers (0 when the next read delivers nothing). -/
def pendingTag (w : World) : Nat :=
  match w.reads with
  | Read.data bs :: _ => bs.headD 0
  | _ => 0

/-- The sensor count `main` adopts, when start-up gets that far. -/
def adoptedSensors (r : Except Fault (Option context × World)) : Option Nat :=
  match r with
  | Except.ok (some ctx, _) => some ctx.sensors
  | _ => none

/-! ## Well-formed report lines -/

/-- The array a pointer target names. -/
def arrOf (t : Target) (ctx : context) : Nat → Int :=
  match t with
  | Target.values => ctx.values
  | Target.thresholds => ctx.thresholds

/-- The other array. -/
def Target.other : Target → Target
  | Target.values => Target.thresholds
  | Target.thresholds => Target.values

/-- The array the tag byte of a line selects (`'v'` is 118, `'t'` is 116). -/
def tagTarget (tag : Nat) : Target :=
  if tag = 118 then Target.values else Target.thresholds

/-- The number a run of decimal digits denotes. -/
def decVal (d : List Nat) : Nat := d.foldl (fun a c => a * 10 + (c - 48)) 0

/-- A separator: bytes that are neither digits nor the end of the line or of the string. -/
@[reducible] def isSep (s : List Nat) : Prop := ∀ c ∈ s, is_digit c = false ∧ c ≠ 0 ∧ c ≠ 10

/-- A decimal number: a non-empty run of digits. -/
@[reducible] def isNumber (d : List Nat) : Prop := d ≠ [] ∧ ∀ c ∈ d, is_digit c = true

/-- The text of a sequence of numbers, each preceded by its separator. -/
def renderItems : List (List Nat × List Nat) → List Nat
  | [] => []
  | it :: xs => it.1 ++ it.2 ++ renderItems xs

/-- A sequence of (separator, number) pairs is well formed when every separator is one, every
number is one, and every number but the first has a non-empty separator in front of it (the
first may follow the tag byte directly). -/
@[reducible] def wellFormed (items : List (List Nat × List Nat)) : Prop :=
  (∀ it ∈ items, isSep it.1) ∧ (∀ it ∈ items, isNumber it.2) ∧ (∀ it ∈ items.tail, it.1 ≠ [])

/-- The report line: tag byte, the numbers, an optional trailing separator, `'\n'`, and
whatever the buffer holds after it. -/
def reportLine (tag : Nat) (items : List (List Nat × List Nat)) (trail after : List Nat) :
    List Nat :=
  tag :: (renderItems items ++ (trail ++ 10 :: after))

/-- The numbers of a line, as the `int` values the parser stores. -/
def numbersOf (items : List (List Nat × List Nat)) : List Int :=
  items.map (fun it => toInt32 (decVal it.2))

/-- Consecutive slots of array `t` from index `k` on replaced by the given values. -/
def storeList (ctx : context) (t : Target) : Nat → List Int → context
  | _, [] => ctx
  | k, v :: vs => storeList (storeSlot ctx t k v) t (k + 1) vs

/-- Loop iterations the parser spends on a sequence of numbers: one per separator byte and
one per number. -/
def steps : List (List Nat × List Nat) → Nat
  | [] => 0
  | it :: xs => it.1.length + 1 + steps xs

/-! ## Auxiliary definitions for the statements on the session and the profile codec -/

/-- The return value `pad_set_threshold` has when the read phase goes through. -/
def writeCode (w : World) (cmd : List Nat) : Int :=
  if (pad_serial_write_cmd w cmd).1 ≠ 0 then 1 else 0

/-- The commands the second loop of `profile_load` hands to the port for the stored
thresholds `ts`, the first of them for sensor `k`. -/
def cmdsFrom : Nat → List Nat → List (List Nat)
  | _, [] => []
  | k, t :: ts => set_command k (max 0 (min 1023 (toInt32 t))) :: cmdsFrom (k + 1) ts

/-- The bytes `profile_save` writes for a store. -/
def savedBytes (ctx : context) : List Nat :=
  signature ++ le32 (ctx.sensors % 4294967296) ++
    (List.range (min (ctx.sensors % 4294967296) SENSORS_MAX)).flatMap
      (fun i => le32 (toUInt32 (ctx.thresholds i)))

/-! ## Lemmas on the parser -/

theorem is_digit_ne (c : Nat) (h : is_digit c = true) : c ≠ 0 ∧ c ≠ 10 := by
  simp only [is_digit, Bool.and_eq_true, decide_eq_true_eq] at h
  omega

theorem digitRun_append (d R : List Nat) (acc : Nat) (hd : ∀ c ∈ d, is_digit c = true)
    (hR : is_digit (R.headD 0) = false) :
    digitRun (d ++ R) acc = (d.foldl (fun a c => a * 10 + (c - 48)) acc, R) := by
  induction d generalizing acc with
  | nil =>
    cases R with
    | nil => rfl
    | cons c cs =>
      have hc : is_digit c = false := by simpa using hR
      simp [digitRun, hc]
  | cons c cs ih =>
    have hc : is_digit c = true := hd c (List.mem_cons_self _ _)
    have hcs : ∀ x ∈ cs, is_digit x = true := fun x hx => hd x (List.mem_cons_of_mem _ hx)
    simp [digitRun, hc, ih _ hcs]

theorem parse_loop_skip (longMax : Nat) (s R : List Nat) (hs : isSep s) (fuel : Nat)
    (ctx : context) (dest : Option Ptr) (size count errno : Nat) :
    parse_loop longMax (fuel + s.length) ctx (s ++ R) dest size count errno
      = parse_loop longMax fuel ctx R dest size count errno := by
  induction s with
  | nil => rfl
  | cons c cs ih =>
    have hc := hs c (List.mem_cons_self _ _)
    have hcs : isSep cs := fun x hx => hs x (List.mem_cons_of_mem _ hx)
    have e : fuel + (c :: cs).length = (fuel + cs.length) + 1 := by simp; omega
    rw [e]
    simp only [List.cons_append, parse_loop]
    simp [hc.1, hc.2.1, hc.2.2, ih hcs]

theorem parse_loop_number (longMax : Nat) (d R : List Nat) (hd : isNumber d)
    (hR : is_digit (R.headD 0) = false) (hv : decVal d ≤ longMax) (fuel : Nat)
    (ctx : context) (p : Ptr) (size count : Nat) :
    parse_loop longMax (fuel + 1) ctx (d ++ R) (some p) size count 0
      = if size ≠ 0 then
          match storeAt ctx p (toInt32 (decVal d)) with
          | Except.ok ctx1 =>
            parse_loop longMax fuel ctx1 R (some ⟨p.target, p.idx + 1⟩) (size - 1) (count + 1) 0
          | Except.error f => Except.error f
        else parse_loop longMax fuel ctx R (some p) size (count + 1) 0 := by
  obtain ⟨hne, hdig⟩ := hd
  cases d with
  | nil => exact absurd rfl hne
  | cons c cs =>
    have hc : is_digit c = true := hdig c (List.mem_cons_self _ _)
    have hn := is_digit_ne c hc
    have hrun : digitRun (c :: (cs ++ R)) 0 = (decVal (c :: cs), R) := by
      have := digitRun_append (c :: cs) R 0 hdig hR
      simpa [decVal] using this
    have hlt : ¬ longMax < decVal (c :: cs) := by omega
    have hR1 : is_digit (R.head?.getD 0) = false := by simpa using hR
    simp only [List.cons_append, parse_loop]
    simp [hn.1, hn.2, hc, strtol, hrun, hlt, hR1]

theorem parse_loop_overflow (longMax : Nat) (d R : List Nat) (hd : isNumber d)
    (hR : is_digit (R.headD 0) = false) (hv : longMax < decVal d) (fuel : Nat)
    (ctx : context) (dest : Option Ptr) (size count errno : Nat) :
    parse_loop longMax (fuel + 1) ctx (d ++ R) dest size count errno
      = Except.ok ⟨0, ctx, ERANGE⟩ := by
  obtain ⟨hne, hdig⟩ := hd
  cases d with
  | nil => exact absurd rfl hne
  | cons c cs =>
    have hc : is_digit c = true := hdig c (List.mem_cons_self _ _)
    have hn := is_digit_ne c hc
    have hrun : digitRun (c :: (cs ++ R)) 0 = (decVal (c :: cs), R) := by
      have := digitRun_append (c :: cs) R 0 hdig hR
      simpa [decVal] using this
    simp only [List.cons_append, parse_loop]
    simp [hn.1, hn.2, hc, strtol, hrun, hv, ERANGE]

theorem parse_loop_stale_errno (longMax : Nat) (c : Nat) (R : List Nat)
    (hc : is_digit c = true) (fuel : Nat) (ctx : context) (dest : Option Ptr)
    (size count errno : Nat) (he : errno ≠ 0) :
    ∃ e, e ≠ 0 ∧ parse_loop longMax (fuel + 1) ctx (c :: R) dest size count errno
      = Except.ok ⟨0, ctx, e⟩ := by
  have hn := is_digit_ne c hc
  by_cases hlt : longMax < (digitRun (c :: R) 0).1
  · refine ⟨ERANGE, by decide, ?_⟩
    simp only [parse_loop]
    simp [hn.1, hn.2, hc, strtol, hlt, ERANGE]
  · refine ⟨errno, he, ?_⟩
    simp only [parse_loop]
    simp [hn.1, hn.2, hc, strtol, hlt, he]

theorem digitRun_length (s : List Nat) (acc : Nat) : (digitRun s acc).2.length ≤ s.length := by
  induction s generalizing acc with
  | nil => simp [digitRun]
  | cons c cs ih =>
    simp only [digitRun]
    split_ifs
    · exact le_trans (ih _) (by simp)
    · simp

theorem strtol_end_length (longMax c : Nat) (rest : List Nat) (errno : Nat)
    (hc : is_digit c = true) : (strtol longMax (c :: rest) errno).2.1.length ≤ rest.length := by
  have h : (digitRun (c :: rest) 0).2.length ≤ rest.length := by
    simp only [digitRun, hc, if_true]
    exact digitRun_length _ _
  simp only [strtol]
  split_ifs <;> exact h

/-- The budget `pad_parse_values` gives its loop is never used up: every iteration consumes
at least one byte of the report. -/
theorem parse_loop_fuel (longMax : Nat) (fuel : Nat) (ctx : context) (report : List Nat)
    (dest : Option Ptr) (size count errno : Nat) (h : report.length < fuel) :
    parse_loop longMax fuel ctx report dest size count errno ≠ Except.error Fault.fuel := by
  induction fuel generalizing ctx report dest size count errno with
  | zero => omega
  | succ n ih =>
    cases report with
    | nil => simp [parse_loop]
    | cons c rest =>
      have hr : rest.length < n := by simp only [List.length_cons] at h; omega
      simp only [parse_loop]
      by_cases h1 : c = 0 ∨ c = 10
      · rw [if_pos h1]; simp
      · rw [if_neg h1]
        by_cases h2 : is_digit c = true
        · rw [if_pos h2]
          have hl := strtol_end_length longMax c rest errno h2
          by_cases h3 : (strtol longMax (c :: rest) errno).2.2 ≠ 0
          · rw [if_pos h3]; simp
          · rw [if_neg h3]
            by_cases h4 : is_digit ((strtol longMax (c :: rest) errno).2.1.headD 0) = true
            · rw [if_pos h4]; simp
            · rw [if_neg h4]
              cases dest with
              | none => exact ih _ _ _ _ _ _ (by omega)
              | some p =>
                simp only
                by_cases h5 : size ≠ 0
                · rw [if_pos h5]
                  simp only [storeAt]
                  by_cases h6 : p.idx < SENSORS_MAX
                  · rw [if_pos h6]
                    exact ih _ _ _ _ _ _ (by omega)
                  · rw [if_neg h6]; simp
                · rw [if_neg h5]
                  exact ih _ _ _ _ _ _ (by omega)
        · rw [if_neg h2]
          exact ih _ _ _ _ _ _ hr

/-- Source: `pad_parse_values` never runs out of budget, whatever the report. -/
theorem pad_parse_values_fuel (longMax : Nat) (ctx : context) (report : List Nat)
    (dest : Option Ptr) (size errno : Nat) :
    pad_parse_values longMax ctx report dest size errno ≠ Except.error Fault.fuel := by
  cases report with
  | nil => simp [pad_parse_values]
  | cons c rest =>
    simp only [pad_parse_values]
    split_ifs
    · exact parse_loop_fuel longMax _ ctx rest _ size 0 errno (by omega)
    · exact parse_loop_fuel longMax _ ctx rest _ size 0 errno (by omega)
    · simp

theorem head_renderItems (items : List (List Nat × List Nat)) (tl : List Nat)
    (hsep : ∀ it ∈ items, isSep it.1) (hgap : ∀ it ∈ items, it.1 ≠ [])
    (htl : is_digit (tl.headD 0) = false) :
    is_digit ((renderItems items ++ tl).headD 0) = false := by
  cases items with
  | nil => simpa [renderItems] using htl
  | cons it xs =>
    have h1 := hgap it (List.mem_cons_self _ _)
    have h2 := hsep it (List.mem_cons_self _ _)
    cases hs : it.1 with
    | nil => exact absurd hs h1
    | cons c cs =>
      have : c ∈ it.1 := by rw [hs]; exact List.mem_cons_self _ _
      simp [renderItems, hs, (h2 c this).1]

theorem steps_le (items : List (List Nat × List Nat)) (hnum : ∀ it ∈ items, isNumber it.2) :
    steps items ≤ (renderItems items).length := by
  induction items with
  | nil => simp [steps]
  | cons it xs ih =>
    have h1 := (hnum it (List.mem_cons_self _ _)).1
    have h2 := ih (fun x hx => hnum x (List.mem_cons_of_mem _ hx))
    have h3 : 0 < it.2.length := List.length_pos.mpr h1
    simp only [steps, renderItems, List.length_append]
    omega

theorem parse_loop_items (longMax : Nat) (items : List (List Nat × List Nat)) (tl : List Nat)
    (htl : items ≠ [] → is_digit (tl.headD 0) = false) (hwf : wellFormed items)
    (hval : ∀ it ∈ items, decVal it.2 ≤ longMax) (fuel : Nat) (ctx : context) (t : Target)
    (k size count : Nat) (hb : k + min items.length size ≤ SENSORS_MAX) :
    parse_loop longMax (fuel + steps items) ctx (renderItems items ++ tl) (some ⟨t, k⟩) size
        count 0
      = parse_loop longMax fuel (storeList ctx t k ((numbersOf items).take size)) tl
          (some ⟨t, k + min items.length size⟩) (size - items.length) (count + items.length) 0 := by
  induction items generalizing ctx k size count with
  | nil => simp [steps, renderItems, numbersOf, storeList]
  | cons it xs ih =>
    obtain ⟨hsep, hnum, hgap⟩ := hwf
    have hsep1 : ∀ x ∈ xs, isSep x.1 := fun x hx => hsep x (List.mem_cons_of_mem _ hx)
    have hnum1 : ∀ x ∈ xs, isNumber x.2 := fun x hx => hnum x (List.mem_cons_of_mem _ hx)
    have hgap1 : ∀ x ∈ xs, x.1 ≠ [] := fun x hx => hgap x (by simpa using hx)
    have hval1 : ∀ x ∈ xs, decVal x.2 ≤ longMax := fun x hx => hval x (List.mem_cons_of_mem _ hx)
    have hwf1 : wellFormed xs :=
      ⟨hsep1, hnum1, fun x hx => hgap1 x (List.mem_of_mem_tail hx)⟩
    have hR := head_renderItems xs tl hsep1 hgap1 (htl (List.cons_ne_nil _ _))
    have e : fuel + steps (it :: xs) = (fuel + steps xs + 1) + it.1.length := by
      simp only [steps]; omega
    have e2 : renderItems (it :: xs) ++ tl = it.1 ++ (it.2 ++ (renderItems xs ++ tl)) := by
      simp [renderItems]
    rw [e, e2, parse_loop_skip longMax _ _ (hsep it (List.mem_cons_self _ _)),
      parse_loop_number longMax _ _ (hnum it (List.mem_cons_self _ _)) hR
        (hval it (List.mem_cons_self _ _))]
    cases size with
    | zero =>
      have hb1 : k + min xs.length 0 ≤ SENSORS_MAX := by simp at hb ⊢; exact hb
      have := ih (fun _ => htl (List.cons_ne_nil _ _)) hwf1 hval1 ctx k 0 (count + 1) hb1
      simp only [ne_eq, not_true_eq_false, if_false] 
      rw [this]
      simp [storeList, Nat.add_assoc, Nat.add_comm 1]
    | succ m =>
      have hk : k < SENSORS_MAX := by
        simp only [List.length_cons] at hb
        omega
      have hb1 : (k + 1) + min xs.length m ≤ SENSORS_MAX := by
        simp only [List.length_cons] at hb
        omega
      have := ih (fun _ => htl (List.cons_ne_nil _ _)) hwf1 hval1
        (storeSlot ctx t k (toInt32 (decVal it.2))) (k + 1) m (count + 1) hb1
      have e3 : k + min (it :: xs).length (m + 1) = (k + 1) + min xs.length m := by
        simp only [List.length_cons]; omega
      have e4 : m + 1 - (it :: xs).length = m - xs.length := by
        simp only [List.length_cons]; omega
      have e5 : count + (it :: xs).length = count + 1 + xs.length := by
        simp only [List.length_cons]; omega
      simp only [ne_eq, Nat.add_one_ne_zero, not_false_eq_true, if_true, storeAt, hk,
        Nat.add_sub_cancel]
      rw [this, e3, e4, e5]
      simp [numbersOf, storeList]

theorem parse_loop_end (longMax : Nat) (trail after : List Nat) (htrail : isSep trail)
    (fuel : Nat) (ctx : context) (dest : Option Ptr) (size count errno : Nat) :
    parse_loop longMax (fuel + 1 + trail.length) ctx (trail ++ 10 :: after) dest size count errno
      = Except.ok ⟨count, ctx, errno⟩ := by
  rw [parse_loop_skip longMax _ _ htrail]
  simp [parse_loop]

theorem head_trail (trail after : List Nat) (htrail : isSep trail) :
    is_digit ((trail ++ 10 :: after).headD 0) = false := by
  cases trail with
  | nil => simp [is_digit]
  | cons c cs => simpa using (htrail c (List.mem_cons_self _ _)).1

/-- The whole loop on a well-formed line, from any budget that covers the line. -/
theorem parse_loop_line (longMax : Nat) (items : List (List Nat × List Nat))
    (trail after : List Nat) (hwf : wellFormed items) (htrail : isSep trail)
    (hval : ∀ it ∈ items, decVal it.2 ≤ longMax) (ctx : context) (t : Target) (size : Nat)
    (hb : min items.length size ≤ SENSORS_MAX) :
    parse_loop longMax ((renderItems items ++ (trail ++ 10 :: after)).length + 1) ctx
        (renderItems items ++ (trail ++ 10 :: after)) (some ⟨t, 0⟩) size 0 0
      = Except.ok ⟨items.length, storeList ctx t 0 ((numbersOf items).take size), 0⟩ := by
  have h1 := steps_le items hwf.2.1
  have e : (renderItems items ++ (trail ++ 10 :: after)).length + 1
      = ((renderItems items).length - steps items + after.length + 1 + 1 + trail.length)
        + steps items := by
    simp only [List.length_append, List.length_cons]; omega
  rw [e, parse_loop_items longMax items _ (fun _ => head_trail trail after htrail) hwf hval _ ctx t 0
    size 0
    (by simpa using hb), parse_loop_end longMax trail after htrail]
  simp

/-- The loop on a line whose first number beyond the range of `long` is `it`, after the
numbers `pre`: the numbers before it are stored, then the parse is abandoned. -/
theorem parse_loop_line_overflow (longMax : Nat) (pre post : List (List Nat × List Nat))
    (it : List Nat × List Nat) (trail after : List Nat)
    (hwf : wellFormed (pre ++ it :: post)) (htrail : isSep trail)
    (hval : ∀ x ∈ pre, decVal x.2 ≤ longMax) (hov : longMax < decVal it.2)
    (ctx : context) (t : Target) (size : Nat) (hb : min pre.length size ≤ SENSORS_MAX) :
    parse_loop longMax
        ((renderItems (pre ++ it :: post) ++ (trail ++ 10 :: after)).length + 1) ctx
        (renderItems (pre ++ it :: post) ++ (trail ++ 10 :: after)) (some ⟨t, 0⟩) size 0 0
      = Except.ok ⟨0, storeList ctx t 0 ((numbersOf pre).take size), ERANGE⟩ := by
  obtain ⟨hsep, hnum, hgap⟩ := hwf
  have hsepP : ∀ x ∈ pre, isSep x.1 := fun x hx => hsep x (by simp [hx])
  have hnumP : ∀ x ∈ pre, isNumber x.2 := fun x hx => hnum x (by simp [hx])
  have hgapP : ∀ x ∈ pre.tail, x.1 ≠ [] := by
    intro x hx
    cases pre with
    | nil => simp at hx
    | cons a as => exact hgap x (by simp at hx ⊢; exact Or.inl hx)
  have hsepI : isSep it.1 := hsep it (by simp)
  have hnumI : isNumber it.2 := hnum it (by simp)
  have hgapI : pre ≠ [] → it.1 ≠ [] := by
    intro hne
    cases pre with
    | nil => exact absurd rfl hne
    | cons a as => exact hgap it (by simp)
  have hsepQ : ∀ x ∈ post, isSep x.1 := fun x hx => hsep x (by simp [hx])
  have hgapQ : ∀ x ∈ post, x.1 ≠ [] := by
    intro x hx
    cases pre with
    | nil => exact hgap x (by simpa using hx)
    | cons a as => exact hgap x (by simp [hx])
  have hR : is_digit ((renderItems post ++ (trail ++ 10 :: after)).headD 0) = false :=
    head_renderItems post _ hsepQ hgapQ (head_trail trail after htrail)
  have hsplit : renderItems (pre ++ it :: post) ++ (trail ++ 10 :: after)
      = renderItems pre ++ (it.1 ++ (it.2 ++ (renderItems post ++ (trail ++ 10 :: after)))) := by
    have : ∀ (a b : List (List Nat × List Nat)),
        renderItems (a ++ b) = renderItems a ++ renderItems b := by
      intro a b
      induction a with
      | nil => simp [renderItems]
      | cons x xs ih => simp [renderItems, ih]
    simp [this, renderItems]
  have htl : pre ≠ [] →
      is_digit ((it.1 ++ (it.2 ++ (renderItems post ++ (trail ++ 10 :: after)))).headD 0)
        = false := by
    intro hne
    have h1 := hgapI hne
    cases hs : it.1 with
    | nil => exact absurd hs h1
    | cons c cs =>
      have : c ∈ it.1 := by rw [hs]; exact List.mem_cons_self _ _
      simpa using (hsepI c this).1
  have h1 := steps_le pre hnumP
  have h3 : 0 < it.2.length := List.length_pos.mpr hnumI.1
  rw [hsplit]
  have e : (renderItems pre ++ (it.1 ++ (it.2 ++ (renderItems post ++ (trail ++ 10 :: after))))).length
      + 1 = (((renderItems pre).length - steps pre + it.2.length
          + (renderItems post ++ (trail ++ 10 :: after)).length) + 1 + it.1.length)
        + steps pre := by
    simp only [List.length_append, List.length_cons]; omega
  rw [e, parse_loop_items longMax pre _ htl ⟨hsepP, hnumP, hgapP⟩ hval _ ctx t 0 size 0
    (by simpa using hb), parse_loop_skip longMax _ _ hsepI,
    parse_loop_overflow longMax _ _ hnumI hR hov]

/-- The loop on a well-formed line when `errno` is not clear on entry: with no number in the
line the count 0 is returned, and the first number makes the parser give up; in both cases
nothing is stored. -/
theorem parse_loop_line_stale (longMax : Nat) (items : List (List Nat × List Nat))
    (trail after : List Nat) (hwf : wellFormed items) (htrail : isSep trail)
    (ctx : context) (dest : Option Ptr) (size errno : Nat) (he : errno ≠ 0) :
    ∃ e, parse_loop longMax ((renderItems items ++ (trail ++ 10 :: after)).length + 1) ctx
        (renderItems items ++ (trail ++ 10 :: after)) dest size 0 errno
      = Except.ok ⟨0, ctx, e⟩ := by
  cases items with
  | nil =>
    refine ⟨errno, ?_⟩
    have e : (renderItems [] ++ (trail ++ 10 :: after)).length + 1
        = (after.length + 1) + 1 + trail.length := by
      simp only [renderItems, List.nil_append, List.length_append, List.length_cons]; omega
    rw [e]
    simpa [renderItems] using
      parse_loop_end longMax trail after htrail (after.length + 1) ctx dest size 0 errno
  | cons it xs =>
    obtain ⟨hsep, hnum, _⟩ := hwf
    have hs := hsep it (List.mem_cons_self _ _)
    obtain ⟨hne, hdig⟩ := hnum it (List.mem_cons_self _ _)
    cases hd : it.2 with
    | nil => exact absurd hd hne
    | cons c cs =>
      have hc : is_digit c = true := hdig c (by rw [hd]; exact List.mem_cons_self _ _)
      have e2 : renderItems (it :: xs) ++ (trail ++ 10 :: after)
          = it.1 ++ (c :: (cs ++ (renderItems xs ++ (trail ++ 10 :: after)))) := by
        simp [renderItems, hd]
      have e : (it.1 ++ (c :: (cs ++ (renderItems xs ++ (trail ++ 10 :: after))))).length + 1
          = ((cs ++ (renderItems xs ++ (trail ++ 10 :: after))).length + 1 + 1) + it.1.length := by
        simp only [List.length_append, List.length_cons]; omega
      rw [e2, e, parse_loop_skip longMax _ _ hs]
      obtain ⟨e1, _, h⟩ := parse_loop_stale_errno longMax c
        (cs ++ (renderItems xs ++ (trail ++ 10 :: after))) hc
        ((cs ++ (renderItems xs ++ (trail ++ 10 :: after))).length + 1) ctx dest size 0 errno he
      exact ⟨e1, h⟩

/-! ## Lemmas on the stored values -/

theorem storeList_sensors (ctx : context) (t : Target) (k : Nat) (vs : List Int) :
    (storeList ctx t k vs).sensors = ctx.sensors := by
  induction vs generalizing ctx k with
  | nil => rfl
  | cons v vs ih => rw [storeList, ih]; cases t <;> rfl

theorem storeList_other (ctx : context) (t : Target) (k : Nat) (vs : List Int) (i : Nat) :
    arrOf t.other (storeList ctx t k vs) i = arrOf t.other ctx i := by
  induction vs generalizing ctx k with
  | nil => rfl
  | cons v vs ih => rw [storeList, ih]; cases t <;> rfl

theorem storeList_outside (ctx : context) (t : Target) (k : Nat) (vs : List Int) (i : Nat)
    (h : i < k ∨ k + vs.length ≤ i) :
    arrOf t (storeList ctx t k vs) i = arrOf t ctx i := by
  induction vs generalizing ctx k with
  | nil => rfl
  | cons v vs ih =>
    have hi : i ≠ k := by simp only [List.length_cons] at h; omega
    rw [storeList, ih _ _ (by simp only [List.length_cons] at h; omega)]
    cases t <;> simp [storeSlot, arrOf, setSlot, hi]

theorem storeList_inside (ctx : context) (t : Target) (k : Nat) (vs : List Int) (i : Nat)
    (h : i < vs.length) :
    arrOf t (storeList ctx t k vs) (k + i) = vs.getD i 0 := by
  induction vs generalizing ctx k i with
  | nil => simp at h
  | cons v vs ih =>
    rw [storeList]
    cases i with
    | zero =>
      rw [storeList_outside _ _ _ _ _ (Or.inl (by omega))]
      cases t <;> simp [storeSlot, arrOf, setSlot]
    | succ j =>
      have := ih (storeSlot ctx t k v) (k + 1) j (by simpa using h)
      have e : k + (j + 1) = k + 1 + j := by omega
      rw [e, this]
      simp

theorem storeList_front (ctx : context) (t : Target) (vs : List Int) :
    (List.range vs.length).map (arrOf t (storeList ctx t 0 vs)) = vs := by
  apply List.ext_getElem
  · simp
  · intro i h1 h2
    have := storeList_inside ctx t 0 vs i h2
    simp only [Nat.zero_add] at this
    simp [this, List.getElem?_eq_getElem h2]

theorem toInt32_of_le (v : Nat) (h : v ≤ INT_MAX) : toInt32 (v : Int) = (v : Int) := by
  simp only [INT_MAX] at h
  simp only [toInt32]
  omega

theorem exists_first_overflow (longMax : Nat) (items : List (List Nat × List Nat))
    (h : ¬ ∀ it ∈ items, decVal it.2 ≤ longMax) :
    ∃ pre it post, items = pre ++ it :: post ∧ (∀ x ∈ pre, decVal x.2 ≤ longMax)
      ∧ longMax < decVal it.2 := by
  induction items with
  | nil => simp at h
  | cons a as ih =>
    by_cases ha : decVal a.2 ≤ longMax
    · have h1 : ¬ ∀ it ∈ as, decVal it.2 ≤ longMax := by
        intro hall
        apply h
        intro it hit
        rcases List.mem_cons.mp hit with rfl | hm
        · exact ha
        · exact hall it hm
      obtain ⟨pre, it, post, e, hp, ho⟩ := ih h1
      refine ⟨a :: pre, it, post, by simp [e], ?_, ho⟩
      intro x hx
      rcases List.mem_cons.mp hx with rfl | hm
      · exact ha
      · exact hp x hm
    · exact ⟨[], a, as, rfl, by simp, by omega⟩

/-- On every well-formed line, whatever the numbers and whatever `errno` holds, the loop
returns, and what it has stored is a run of consecutive slots from slot 0 on, no longer than
the count of numbers or the capacity. -/
theorem parse_loop_line_stored (longMax : Nat) (items : List (List Nat × List Nat))
    (trail after : List Nat) (hwf : wellFormed items) (htrail : isSep trail)
    (ctx : context) (t : Target) (size errno : Nat)
    (hb : min items.length size ≤ SENSORS_MAX) :
    ∃ ret vs e, vs.length ≤ min items.length size ∧
      parse_loop longMax ((renderItems items ++ (trail ++ 10 :: after)).length + 1) ctx
        (renderItems items ++ (trail ++ 10 :: after)) (some ⟨t, 0⟩) size 0 errno
      = Except.ok ⟨ret, storeList ctx t 0 vs, e⟩ := by
  by_cases he : errno = 0
  · subst he
    by_cases hall : ∀ it ∈ items, decVal it.2 ≤ longMax
    · refine ⟨items.length, (numbersOf items).take size, 0, ?_, ?_⟩
      · simp [numbersOf, Nat.min_comm]
      · exact parse_loop_line longMax items trail after hwf htrail hall ctx t size hb
    · obtain ⟨pre, it, post, e, hp, ho⟩ := exists_first_overflow longMax items hall
      subst e
      have hlen : pre.length ≤ (pre ++ it :: post).length := by simp
      refine ⟨0, (numbersOf pre).take size, ERANGE, ?_, ?_⟩
      · simp only [numbersOf, List.length_take, List.length_map]
        omega
      · exact parse_loop_line_overflow longMax pre post it trail after hwf htrail hp ho ctx t
          size (by omega)
  · obtain ⟨e, h⟩ := parse_loop_line_stale longMax items trail after hwf htrail ctx
      (some ⟨t, 0⟩) size errno he
    exact ⟨0, [], e, by simp, by simpa [storeList] using h⟩

theorem pad_parse_values_tag (longMax : Nat) (ctx : context) (tag : Nat)
    (htag : tag = 118 ∨ tag = 116) (rest : List Nat) (dest : Option Ptr) (size errno : Nat) :
    pad_parse_values longMax ctx (tag :: rest) dest size errno
      = parse_loop longMax (rest.length + 1) ctx rest (some ⟨tagTarget tag, 0⟩) size 0 errno := by
  rcases htag with rfl | rfl <;> simp [pad_parse_values, tagTarget]

/-! ## Theorems on report parsing -/

/-- C1: a line made of the tag byte `'v'` or `'t'`, then `n` decimal numbers within the range
of `int` separated by non-digit bytes, then `'\n'`, parsed with `errno` clear and capacity
`ctx.sensors`, makes `pad_parse_values` return `n` (also when `n` exceeds the capacity) and
leaves the first `min n ctx.sensors` numbers, in order, in slots `0, 1, ...` of `values` for
tag `'v'` and of `thresholds` for tag `'t'`.  The stores have to stay inside the 64-entry
arrays, outside which the C code has no defined behaviour. -/
theorem pad_parse_values_stores_numbers (longMax : Nat) (hlong : INT_MAX ≤ longMax)
    (ctx : context) (tag : Nat) (htag : tag = 118 ∨ tag = 116)
    (items : List (List Nat × List Nat)) (trail after : List Nat) (dest : Option Ptr)
    (hwf : wellFormed items) (htrail : isSep trail)
    (hint : ∀ it ∈ items, decVal it.2 ≤ INT_MAX)
    (hcap : min items.length ctx.sensors ≤ SENSORS_MAX) :
    ∃ p, pad_parse_values longMax ctx (reportLine tag items trail after) dest ctx.sensors 0
        = Except.ok p
      ∧ p.ret = items.length
      ∧ (List.range (min items.length ctx.sensors)).map (arrOf (tagTarget tag) p.ctx)
        = (items.map (fun it => (decVal it.2 : Int))).take ctx.sensors := by
  have hval : ∀ it ∈ items, decVal it.2 ≤ longMax := fun it h => le_trans (hint it h) hlong
  have hnum : numbersOf items = items.map (fun it => (decVal it.2 : Int)) := by
    apply List.map_congr_left
    intro it h
    exact toInt32_of_le _ (hint it h)
  refine ⟨⟨items.length, storeList ctx (tagTarget tag) 0 ((numbersOf items).take ctx.sensors), 0⟩,
    ?_, rfl, ?_⟩
  · rw [reportLine, pad_parse_values_tag longMax ctx tag htag]
    exact parse_loop_line longMax items trail after hwf htrail hval ctx _ ctx.sensors hcap
  · have h := storeList_front ctx (tagTarget tag) ((numbersOf items).take ctx.sensors)
    have hl : ((numbersOf items).take ctx.sensors).length = min items.length ctx.sensors := by
      simp [numbersOf, Nat.min_comm]
    rw [hl] at h
    exact h.trans (by rw [hnum])

/-- C1, on the lines `"v 10 20 30\n"` and `"t 5\n"`. -/
theorem pad_parse_values_stores_numbers_witness :
    (∃ p, pad_parse_values 2147483647 (mkContext 3 [] []) (bytes "v 10 20 30\n") none 3 0
        = Except.ok p ∧ p.ret = 3 ∧ (List.range 3).map p.ctx.values = [10, 20, 30])
    ∧ (∃ p, pad_parse_values 2147483647 (mkContext 3 [] []) (bytes "t 5\n") none 3 0
        = Except.ok p ∧ p.ret = 1 ∧ (List.range 1).map p.ctx.thresholds = [5]) :=
  ⟨pad_parse_values_stores_numbers 2147483647 (by decide) (mkContext 3 [] []) 118 (by decide)
      [([32], [49, 48]), ([32], [50, 48]), ([32], [51, 48])] [] [] none
      (by decide) (by decide) (by decide) (by decide),
   pad_parse_values_stores_numbers 2147483647 (by decide) (mkContext 3 [] []) 116 (by decide)
      [([32], [53])] [] [] none (by decide) (by decide) (by decide) (by decide)⟩

/-- C6: a well-formed `'v'` (resp. `'t'`) line carrying `n` numbers overwrites only a prefix
of its destination: whatever the numbers and whatever `errno` holds on entry,
`pad_parse_values` returns, every slot of `values` (resp. `thresholds`) at an index
`≥ min n ctx.sensors` keeps its previous value, and the other array and the sensor count are
unchanged.  The stores have to stay inside the 64-entry arrays. -/
theorem pad_parse_values_frame (longMax : Nat) (ctx : context) (tag : Nat)
    (htag : tag = 118 ∨ tag = 116) (items : List (List Nat × List Nat))
    (trail after : List Nat) (dest : Option Ptr) (errno : Nat)
    (hwf : wellFormed items) (htrail : isSep trail)
    (hcap : min items.length ctx.sensors ≤ SENSORS_MAX) :
    ∃ p, pad_parse_values longMax ctx (reportLine tag items trail after) dest ctx.sensors errno
        = Except.ok p
      ∧ (∀ i, min items.length ctx.sensors ≤ i →
          arrOf (tagTarget tag) p.ctx i = arrOf (tagTarget tag) ctx i)
      ∧ (∀ i, arrOf (tagTarget tag).other p.ctx i = arrOf (tagTarget tag).other ctx i)
      ∧ p.ctx.sensors = ctx.sensors := by
  obtain ⟨ret, vs, e, hlen, h⟩ := parse_loop_line_stored longMax items trail after hwf htrail ctx
    (tagTarget tag) ctx.sensors errno hcap
  refine ⟨⟨ret, storeList ctx (tagTarget tag) 0 vs, e⟩, ?_, ?_, ?_, ?_⟩
  · rw [reportLine, pad_parse_values_tag longMax ctx tag htag]
    exact h
  · intro i hi
    exact storeList_outside ctx _ 0 vs i (Or.inr (by omega))
  · intro i
    exact storeList_other ctx _ 0 vs i
  · exact storeList_sensors ctx _ 0 vs

/-- C6, on the store `values = [1, 2, 3]` with three sensors and the line `"v 9\n"`: slots 1
and 2 keep 2 and 3, and the values become `[9, 2, 3]`. -/
theorem pad_parse_values_frame_witness :
    (∃ p, pad_parse_values 2147483647 (mkContext 3 [4, 5, 6] [1, 2, 3]) (bytes "v 9\n") none 3 0
        = Except.ok p
      ∧ (∀ i, 1 ≤ i → p.ctx.values i = (mkContext 3 [4, 5, 6] [1, 2, 3]).values i)
      ∧ (∀ i, p.ctx.thresholds i = (mkContext 3 [4, 5, 6] [1, 2, 3]).thresholds i)
      ∧ p.ctx.sensors = 3)
    ∧ valuesOf (pad_parse_values 2147483647 (mkContext 3 [4, 5, 6] [1, 2, 3]) (bytes "v 9\n")
        none 3 0) 3 = some [9, 2, 3] :=
  ⟨pad_parse_values_frame 2147483647 (mkContext 3 [4, 5, 6] [1, 2, 3]) 118 (by decide)
      [([32], [57])] [] [] none 0 (by decide) (by decide) (by decide),
   by decide⟩

/-- C2, as the code has it: on a line with tag `'v'` or `'t'`, parsed with `errno` clear, whose
first number beyond the range of `long` comes after `k` numbers within that range,
`pad_parse_values` returns 0 and leaves `ERANGE` in `errno`; the first `min k ctx.sensors` of
the earlier numbers are already stored (converted to `int`) in the destination array, its
other slots, the other array and the sensor count are unchanged. -/
theorem pad_parse_values_overflow (longMax : Nat) (ctx : context) (tag : Nat)
    (htag : tag = 118 ∨ tag = 116) (pre post : List (List Nat × List Nat))
    (it : List Nat × List Nat) (trail after : List Nat) (dest : Option Ptr)
    (hwf : wellFormed (pre ++ it :: post)) (htrail : isSep trail)
    (hval : ∀ x ∈ pre, decVal x.2 ≤ longMax) (hov : longMax < decVal it.2)
    (hcap : min pre.length ctx.sensors ≤ SENSORS_MAX) :
    ∃ p, pad_parse_values longMax ctx (reportLine tag (pre ++ it :: post) trail after) dest
        ctx.sensors 0 = Except.ok p
      ∧ p.ret = 0 ∧ p.errno = ERANGE
      ∧ (List.range (min pre.length ctx.sensors)).map (arrOf (tagTarget tag) p.ctx)
        = (numbersOf pre).take ctx.sensors
      ∧ (∀ i, min pre.length ctx.sensors ≤ i →
          arrOf (tagTarget tag) p.ctx i = arrOf (tagTarget tag) ctx i)
      ∧ (∀ i, arrOf (tagTarget tag).other p.ctx i = arrOf (tagTarget tag).other ctx i)
      ∧ p.ctx.sensors = ctx.sensors := by
  have hl : ((numbersOf pre).take ctx.sensors).length = min pre.length ctx.sensors := by
    simp [numbersOf, Nat.min_comm]
  refine ⟨⟨0, storeList ctx (tagTarget tag) 0 ((numbersOf pre).take ctx.sensors), ERANGE⟩,
    ?_, rfl, rfl, ?_, ?_, ?_, ?_⟩
  · rw [reportLine, pad_parse_values_tag longMax ctx tag htag]
    exact parse_loop_line_overflow longMax pre post it trail after hwf htrail hval hov ctx _
      ctx.sensors hcap
  · have h := storeList_front ctx (tagTarget tag) ((numbersOf pre).take ctx.sensors)
    rw [hl] at h
    exact h
  · intro i hi
    exact storeList_outside ctx _ 0 _ i (Or.inr (by omega))
  · intro i
    exact storeList_other ctx _ 0 _ i
  · exact storeList_sensors ctx _ 0 _

/-- C2 as the code has it, on the line `"v 10 99999999999999999999 30\n"` with a 64-bit
`long`: the result is 0, and `10` is in `values[0]`. -/
theorem pad_parse_values_overflow_witness :
    ∃ p, pad_parse_values 9223372036854775807 (mkContext 3 [] [])
        (bytes "v 10 99999999999999999999 30\n") none 3 0 = Except.ok p
      ∧ p.ret = 0 ∧ p.errno = ERANGE
      ∧ (List.range 1).map p.ctx.values = [10]
      ∧ (∀ i, 1 ≤ i → p.ctx.values i = (mkContext 3 [] []).values i)
      ∧ (∀ i, p.ctx.thresholds i = (mkContext 3 [] []).thresholds i)
      ∧ p.ctx.sensors = 3 :=
  pad_parse_values_overflow 9223372036854775807 (mkContext 3 [] []) 118 (by decide)
    [([32], [49, 48])] [([32], [51, 48])]
    ([32], [57, 57, 57, 57, 57, 57, 57, 57, 57, 57, 57, 57, 57, 57, 57, 57, 57, 57, 57, 57])
    [] [] none (by decide) (by decide) (by decide) (by decide) (by decide)

/-- C2 fails as stated: on `"v 10 99999999999999999999\n"`, with 32-bit and with 64-bit `long`
alike, the result is 0 but the earlier number 10 has been stored in `values[0]` (which held
0); and with a 64-bit `long` the run `3000000000`, beyond the range of `int`, is not rejected
at all: the result is 1 and `values[0]` receives the wrapped value. -/
theorem overflowing_line_keeps_earlier_numbers :
    retOf (pad_parse_values 2147483647 (mkContext 3 [] [])
        (bytes "v 10 99999999999999999999\n") none 3 0) = some 0
    ∧ valuesOf (pad_parse_values 2147483647 (mkContext 3 [] [])
        (bytes "v 10 99999999999999999999\n") none 3 0) 3 = some [10, 0, 0]
    ∧ retOf (pad_parse_values 9223372036854775807 (mkContext 3 [] [])
        (bytes "v 10 99999999999999999999\n") none 3 0) = some 0
    ∧ valuesOf (pad_parse_values 9223372036854775807 (mkContext 3 [] [])
        (bytes "v 10 99999999999999999999\n") none 3 0) 3 = some [10, 0, 0]
    ∧ retOf (pad_parse_values 9223372036854775807 (mkContext 3 [] [])
        (bytes "v 3000000000\n") none 3 0) = some 1
    ∧ valuesOf (pad_parse_values 9223372036854775807 (mkContext 3 [] [])
        (bytes "v 3000000000\n") none 3 0) 1 = some [-1294967296] := by
  decide

/-- C10 fails on the code: `errno` is tested after `strtol` without having been cleared
before it.  The line `"v 7\n"` gives count 1 and `values[0] = 7` when `errno` is 0 on entry,
but count 0 and an untouched `values[0]` when `errno` still holds the `ENOENT` of a failed
`fopen`; after one overflowing report, which leaves `ERANGE` behind, the next report
`"v 7\n"` read from the port is answered with 0 as well; and so is the report that follows a
`profile_load` whose `fopen` failed. -/
theorem pad_parse_values_errno_on_entry :
    retOf (pad_parse_values 2147483647 (mkContext 1 [] []) (bytes "v 7\n") none 1 0) = some 1
    ∧ valuesOf (pad_parse_values 2147483647 (mkContext 1 [] []) (bytes "v 7\n") none 1 0) 1
        = some [7]
    ∧ retOf (pad_parse_values 2147483647 (mkContext 1 [] []) (bytes "v 7\n") none 1 ENOENT)
        = some 0
    ∧ valuesOf (pad_parse_values 2147483647 (mkContext 1 [] []) (bytes "v 7\n") none 1 ENOENT) 1
        = some [0]
    ∧ Outcome.retOf (pad_read_parse_values 2147483647 (mkContext 1 [] [])
        ⟨0, [Read.data (bytes "v 7\n")], [], []⟩) = some 1
    ∧ Outcome.retOf (pad_read_parse_values 2147483647 (mkContext 1 [] [])
        ⟨0, [Read.data (bytes "v 99999999999999999999\n"), Read.data (bytes "v 7\n")], [], []⟩)
        = some 0
    ∧ Outcome.retOf
        (match pad_read_parse_values 2147483647 (mkContext 1 [] [])
            ⟨0, [Read.data (bytes "v 99999999999999999999\n"), Read.data (bytes "v 7\n")],
              [], []⟩ with
          | Except.ok r => pad_read_parse_values 2147483647 r.ctx r.w
          | Except.error f => Except.error f) = some 0
    ∧ Outcome.retOf
        (match profile_load 2147483647 (mkContext 1 [] [])
            ⟨0, [Read.data (bytes "v 7\n")], [], []⟩ none with
          | Except.ok r => pad_get_values 2147483647 r.ctx r.w false
          | Except.error f => Except.error f) = some 1
    ∧ Outcome.retOf
        (match profile_load 2147483647 (mkContext 1 [] [])
            ⟨0, [Read.data (bytes "v 7\n")], [], []⟩ (some none) with
          | Except.ok r => pad_get_values 2147483647 r.ctx r.w false
          | Except.error f => Except.error f) = some 0 := by
  decide

/-! ## Lemmas on the session functions -/

theorem clamp_value_eq (value : Int) : clamp_value value = max 0 (min 1023 value) := by
  simp only [clamp_value, SENSOR_MAX_VALUE]
  split_ifs <;> omega

theorem pad_serial_write_cmd_sent (w : World) (cmd : List Nat) :
    (pad_serial_write_cmd w cmd).2.sent = w.sent ++ [cmd] := by
  unfold pad_serial_write_cmd
  split <;> rfl

theorem pad_serial_write_cmd_reads (w : World) (cmd : List Nat) :
    (pad_serial_write_cmd w cmd).2.reads = w.reads := by
  unfold pad_serial_write_cmd
  split <;> rfl

theorem read_loop_sent (longMax : Nat) (ctx : context) (w : World) (rs : List Read)
    (acc : List Nat) (r : Outcome) (h : read_loop longMax ctx w rs acc = Except.ok r) :
    r.w.sent = w.sent := by
  induction rs generalizing acc with
  | nil =>
    simp only [read_loop, Except.ok.injEq] at h
    rw [← h]
  | cons x xs ih =>
    simp only [read_loop] at h
    split_ifs at h with h1 h2 h3
    · simp only [Except.ok.injEq] at h; rw [← h]
    · simp only [Except.ok.injEq] at h; rw [← h]
    · split at h
      · split at h
        · simp only [Except.ok.injEq] at h; rw [← h]
        · exact absurd h (by simp)
      · exact ih _ h
      · simp only [Except.ok.injEq] at h; rw [← h]
      · exact absurd h (by simp)

theorem pad_read_parse_values_sent (longMax : Nat) (ctx : context) (w : World) (r : Outcome)
    (h : pad_read_parse_values longMax ctx w = Except.ok r) : r.w.sent = w.sent :=
  read_loop_sent longMax ctx w w.reads [] r h

theorem pad_read_parse_values_quiet (longMax : Nat) (ctx : context) (w : World)
    (h : w.reads = []) : pad_read_parse_values longMax ctx w = Except.ok ⟨0, ctx, w⟩ := by
  cases w with
  | mk e rs ws st =>
    simp only at h
    subst h
    rfl

theorem pad_set_threshold_eq (longMax : Nat) (ctx : context) (w : World) (sensor value : Int)
    (hs : 0 ≤ sensor ∧ sensor < (SENSORS_MAX : Int)) :
    pad_set_threshold longMax ctx w sensor value
      = if (pad_serial_write_cmd w (set_command sensor (max 0 (min 1023 value)))).1 ≠ 0 then
          Except.ok ⟨1, storeSlot ctx Target.thresholds sensor.toNat (max 0 (min 1023 value)),
            (pad_serial_write_cmd w (set_command sensor (max 0 (min 1023 value)))).2⟩
        else
          match pad_read_parse_values longMax
              (storeSlot ctx Target.thresholds sensor.toNat (max 0 (min 1023 value)))
              (pad_serial_write_cmd w (set_command sensor (max 0 (min 1023 value)))).2 with
          | Except.ok r => Except.ok ⟨0, r.ctx, r.w⟩
          | Except.error f => Except.error f := by
  simp only [pad_set_threshold, clamp_value_eq, hs, and_self, if_true]

theorem pad_set_threshold_sent (longMax : Nat) (ctx : context) (w : World) (sensor value : Int)
    (r : Outcome) (h : pad_set_threshold longMax ctx w sensor value = Except.ok r) :
    r.w.sent = w.sent ++ [set_command sensor (max 0 (min 1023 value))] := by
  by_cases hs : 0 ≤ sensor ∧ sensor < (SENSORS_MAX : Int)
  · rw [pad_set_threshold_eq longMax ctx w sensor value hs] at h
    split_ifs at h with h1
    · simp only [Except.ok.injEq] at h
      rw [← h]
      exact pad_serial_write_cmd_sent _ _
    · split at h
      · rename_i r1 hr1
        simp only [Except.ok.injEq] at h
        rw [← h]
        simp only
        rw [pad_read_parse_values_sent longMax _ _ r1 hr1]
        exact pad_serial_write_cmd_sent _ _
      · exact absurd h (by simp)
  · simp [pad_set_threshold, hs] at h

theorem pad_set_threshold_quiet (longMax : Nat) (ctx : context) (w : World) (sensor value : Int)
    (hs : 0 ≤ sensor ∧ sensor < (SENSORS_MAX : Int)) (hq : w.reads = []) :
    pad_set_threshold longMax ctx w sensor value
      = Except.ok ⟨writeCode w (set_command sensor (max 0 (min 1023 value))),
          storeSlot ctx Target.thresholds sensor.toNat (max 0 (min 1023 value)),
          (pad_serial_write_cmd w (set_command sensor (max 0 (min 1023 value)))).2⟩ := by
  rw [pad_set_threshold_eq longMax ctx w sensor value hs]
  have hq1 := (pad_serial_write_cmd_reads w (set_command sensor (max 0 (min 1023 value)))).trans hq
  rw [pad_read_parse_values_quiet longMax _ _ hq1]
  simp only [writeCode]
  split_ifs <;> rfl

theorem storeSlot_thresholds_same (ctx : context) (i : Nat) (v : Int) :
    (storeSlot ctx Target.thresholds i v).thresholds i = v := by
  simp [storeSlot, setSlot]

theorem storeSlot_thresholds_other (ctx : context) (i j : Nat) (v : Int) (h : j ≠ i) :
    (storeSlot ctx Target.thresholds i v).thresholds j = ctx.thresholds j := by
  simp [storeSlot, setSlot, h]

theorem parse_loop_other (longMax : Nat) (fuel : Nat) (ctx : context) (report : List Nat)
    (p : Ptr) (size count errno : Nat) (q : Parsed)
    (h : parse_loop longMax fuel ctx report (some p) size count errno = Except.ok q) :
    (∀ i, arrOf p.target.other q.ctx i = arrOf p.target.other ctx i)
      ∧ q.ctx.sensors = ctx.sensors := by
  induction fuel generalizing ctx report p size count errno with
  | zero => simp [parse_loop] at h
  | succ n ih =>
    cases report with
    | nil =>
      simp only [parse_loop, Except.ok.injEq] at h
      rw [← h]
      exact ⟨fun _ => rfl, rfl⟩
    | cons c rest =>
      simp only [parse_loop] at h
      by_cases h1 : c = 0 ∨ c = 10
      · rw [if_pos h1] at h
        simp only [Except.ok.injEq] at h
        rw [← h]
        exact ⟨fun _ => rfl, rfl⟩
      · rw [if_neg h1] at h
        by_cases h2 : is_digit c = true
        · rw [if_pos h2] at h
          by_cases h3 : (strtol longMax (c :: rest) errno).2.2 ≠ 0
          · rw [if_pos h3] at h
            simp only [Except.ok.injEq] at h
            rw [← h]
            exact ⟨fun _ => rfl, rfl⟩
          · rw [if_neg h3] at h
            by_cases h4 : is_digit ((strtol longMax (c :: rest) errno).2.1.headD 0) = true
            · rw [if_pos h4] at h
              simp only [Except.ok.injEq] at h
              rw [← h]
              exact ⟨fun _ => rfl, rfl⟩
            · rw [if_neg h4] at h
              by_cases h5 : size ≠ 0
              · rw [if_pos h5] at h
                simp only [storeAt] at h
                by_cases h6 : p.idx < SENSORS_MAX
                · rw [if_pos h6] at h
                  obtain ⟨k1, k2⟩ := ih _ _ ⟨p.target, p.idx + 1⟩ _ _ _ h
                  refine ⟨fun i => ?_, ?_⟩
                  · rw [k1 i]
                    cases p.target <;> rfl
                  · rw [k2]
                    cases p.target <;> rfl
                · rw [if_neg h6] at h
                  exact absurd h (by simp)
              · rw [if_neg h5] at h
                exact ih _ _ p _ _ _ h
        · rw [if_neg h2] at h
          exact ih _ _ p _ _ _ h

/-- A report whose tag byte is not `'t'` leaves every threshold as it was. -/
theorem pad_parse_values_thresholds_kept (longMax : Nat) (ctx : context) (report : List Nat)
    (dest : Option Ptr) (size errno : Nat) (q : Parsed) (ht : report.headD 0 ≠ 116)
    (h : pad_parse_values longMax ctx report dest size errno = Except.ok q) :
    ∀ i, q.ctx.thresholds i = ctx.thresholds i := by
  cases report with
  | nil =>
    simp only [pad_parse_values, Except.ok.injEq] at h
    rw [← h]
    exact fun _ => rfl
  | cons c rest =>
    have hc : c ≠ 116 := by simpa using ht
    simp only [pad_parse_values] at h
    by_cases h1 : c = 118
    · rw [if_pos h1] at h
      exact (parse_loop_other longMax _ ctx rest ⟨Target.values, 0⟩ size 0 errno q h).1
    · rw [if_neg h1, if_neg hc] at h
      simp only [Except.ok.injEq] at h
      rw [← h]
      exact fun _ => rfl

theorem scan_chunk_line_head (bs acc report : List Nat)
    (h : scan_chunk bs acc = Except.ok (Scan.line report)) :
    report.headD 0 = (acc ++ bs).headD 0 := by
  induction bs generalizing acc with
  | nil => simp [scan_chunk] at h
  | cons b bs ih =>
    simp only [scan_chunk] at h
    by_cases h1 : b = 10
    · rw [if_pos h1] at h
      by_cases h2 : acc.length < REPORT_SIZE
      · rw [if_pos h2] at h
        simp only [Except.ok.injEq, Scan.line.injEq] at h
        rw [← h, h1]
        cases acc <;> rfl
      · rw [if_neg h2] at h
        exact absurd h (by simp)
    · rw [if_neg h1] at h
      by_cases h2 : acc.length < REPORT_SIZE
      · rw [if_pos h2] at h
        rw [ih _ h]
        simp
      · rw [if_neg h2] at h
        exact absurd h (by simp)

theorem scan_chunk_more (bs acc acc1 : List Nat)
    (h : scan_chunk bs acc = Except.ok (Scan.more acc1)) : acc1 = acc ++ bs := by
  induction bs generalizing acc with
  | nil =>
    simp only [scan_chunk, Except.ok.injEq, Scan.more.injEq] at h
    simp [h]
  | cons b bs ih =>
    simp only [scan_chunk] at h
    by_cases h1 : b = 10
    · rw [if_pos h1] at h
      by_cases h2 : acc.length < REPORT_SIZE
      · rw [if_pos h2] at h
        exact absurd h (by simp)
      · rw [if_neg h2] at h
        exact absurd h (by simp)
    · rw [if_neg h1] at h
      by_cases h2 : acc.length < REPORT_SIZE
      · rw [if_pos h2] at h
        rw [ih _ h]
        simp
      · rw [if_neg h2] at h
        exact absurd h (by simp)

/-- The read phase leaves every threshold as it was when the line it assembles does not start
with `'t'`. -/
theorem read_loop_thresholds_kept (longMax : Nat) (ctx : context) (w : World) (rs : List Read)
    (acc : List Nat) (r : Outcome)
    (ht : (acc ++ (match rs with
            | Read.data bs :: _ => bs
            | _ => [])).headD 0 ≠ 116)
    (h : read_loop longMax ctx w rs acc = Except.ok r) :
    ∀ i, r.ctx.thresholds i = ctx.thresholds i := by
  induction rs generalizing acc with
  | nil =>
    simp only [read_loop, Except.ok.injEq] at h
    rw [← h]
    exact fun _ => rfl
  | cons x xs ih =>
    simp only [read_loop] at h
    by_cases h0 : 0 ≤ x.ret ∧ x.ret < REPORT_SIZE
    · rw [if_pos h0] at h
      by_cases h1 : x.ret = 0
      · rw [if_pos h1] at h
        simp only [Except.ok.injEq] at h
        rw [← h]
        exact fun _ => rfl
      · rw [if_neg h1] at h
        by_cases h2 : x.ret < 0
        · rw [if_pos h2] at h
          simp only [Except.ok.injEq] at h
          rw [← h]
          exact fun _ => rfl
        · rw [if_neg h2] at h
          cases x with
          | err k => simp [Read.ret] at h0; omega
          | data bs =>
            have hne : bs ≠ [] := by
              intro e
              apply h1
              simp [Read.ret, e]
            simp only [Read.bytes] at h
            simp only at ht
            split at h
            · rename_i report hscan
              split at h
              · rename_i q hq
                simp only [Except.ok.injEq] at h
                rw [← h]
                simp only
                have hh := scan_chunk_line_head bs acc report hscan
                exact pad_parse_values_thresholds_kept longMax ctx report none ctx.sensors
                  w.errno q (by rw [hh]; exact ht) hq
              · exact absurd h (by simp)
            · rename_i acc1 hscan
              have e := scan_chunk_more bs acc acc1 hscan
              refine ih acc1 ?_ h
              have hne1 : acc ++ bs ≠ [] := by simp [hne]
              rw [e]
              cases hab : acc ++ bs with
              | nil => exact absurd hab hne1
              | cons a as =>
                rw [hab] at ht
                simpa using ht
            · simp only [Except.ok.injEq] at h
              rw [← h]
              exact fun _ => rfl
            · exact absurd h (by simp)
    · rw [if_neg h0] at h
      exact absurd h (by simp)

theorem pad_read_parse_values_thresholds_kept (longMax : Nat) (ctx : context) (w : World)
    (r : Outcome) (ht : pendingTag w ≠ 116)
    (h : pad_read_parse_values longMax ctx w = Except.ok r) :
    ∀ i, r.ctx.thresholds i = ctx.thresholds i := by
  refine read_loop_thresholds_kept longMax ctx w w.reads [] r ?_ h
  simp only [pendingTag] at ht
  simp only [List.nil_append]
  split <;> simp_all

theorem pad_serial_write_cmd_pendingTag (w : World) (cmd : List Nat) :
    pendingTag (pad_serial_write_cmd w cmd).2 = pendingTag w := by
  simp only [pendingTag, pad_serial_write_cmd_reads]

/-! ## Theorems on `pad_set_threshold` -/

/-- C3: for every index of the `thresholds` array and every value, the value
`pad_set_threshold` assigns to `thresholds[index]` and formats into the command
`"<index> <value>\n"` is `max 0 (min 1023 value)`, whether or not the serial write succeeds:
when the write fails the call returns 1 with that slot set; when it succeeds the call is the
read phase run on the store with that slot already set; every call that returns has handed
exactly that command to the port; and when nothing arrives on the port the slot still holds
the clamped value on return. -/
theorem pad_set_threshold_clamps (longMax : Nat) (ctx : context) (w : World)
    (sensor value : Int) (hs : 0 ≤ sensor ∧ sensor < (SENSORS_MAX : Int)) :
    ((pad_serial_write_cmd w (set_command sensor (max 0 (min 1023 value)))).1 ≠ 0 →
      ∃ r, pad_set_threshold longMax ctx w sensor value = Except.ok r ∧ r.ret = 1
        ∧ r.ctx.thresholds sensor.toNat = max 0 (min 1023 value))
    ∧ ((pad_serial_write_cmd w (set_command sensor (max 0 (min 1023 value)))).1 = 0 →
      pad_set_threshold longMax ctx w sensor value
        = match pad_read_parse_values longMax
              (storeSlot ctx Target.thresholds sensor.toNat (max 0 (min 1023 value)))
              (pad_serial_write_cmd w (set_command sensor (max 0 (min 1023 value)))).2 with
          | Except.ok r => Except.ok ⟨0, r.ctx, r.w⟩
          | Except.error f => Except.error f)
    ∧ (∀ r, pad_set_threshold longMax ctx w sensor value = Except.ok r →
        r.w.sent = w.sent ++ [set_command sensor (max 0 (min 1023 value))])
    ∧ (w.reads = [] →
        ∃ r, pad_set_threshold longMax ctx w sensor value = Except.ok r
          ∧ r.ctx.thresholds sensor.toNat = max 0 (min 1023 value)) := by
  refine ⟨?_, ?_, ?_, ?_⟩
  · intro hw
    rw [pad_set_threshold_eq longMax ctx w sensor value hs, if_pos hw]
    exact ⟨_, rfl, rfl, storeSlot_thresholds_same _ _ _⟩
  · intro hw
    rw [pad_set_threshold_eq longMax ctx w sensor value hs, if_neg (by simp [hw])]
  · intro r h
    exact pad_set_threshold_sent longMax ctx w sensor value r h
  · intro hq
    rw [pad_set_threshold_quiet longMax ctx w sensor value hs hq]
    exact ⟨_, rfl, storeSlot_thresholds_same _ _ _⟩

/-- C3, on the values -5 and 5000 for sensor 0: 0 and 1023 are stored and sent, also when
the write fails. -/
theorem pad_set_threshold_clamps_witness :
    (∃ r, pad_set_threshold 2147483647 (mkContext 3 [7, 8, 9] []) (quiet 0) 0 (-5) = Except.ok r
      ∧ r.ctx.thresholds 0 = 0)
    ∧ (∀ r, pad_set_threshold 2147483647 (mkContext 3 [7, 8, 9] []) (quiet 0) 0 (-5)
        = Except.ok r → r.w.sent = [bytes "0 0\n"])
    ∧ (∃ r, pad_set_threshold 2147483647 (mkContext 3 [7, 8, 9] [])
        ⟨0, [], [WriteOutcome.writeFail], []⟩ 0 5000 = Except.ok r ∧ r.ret = 1
      ∧ r.ctx.thresholds 0 = 1023)
    ∧ (∀ r, pad_set_threshold 2147483647 (mkContext 3 [7, 8, 9] [])
        ⟨0, [], [WriteOutcome.writeFail], []⟩ 0 5000 = Except.ok r
        → r.w.sent = [bytes "0 1023\n"]) :=
  ⟨(pad_set_threshold_clamps 2147483647 (mkContext 3 [7, 8, 9] []) (quiet 0) 0 (-5)
      (by decide)).2.2.2 rfl,
   (pad_set_threshold_clamps 2147483647 (mkContext 3 [7, 8, 9] []) (quiet 0) 0 (-5)
      (by decide)).2.2.1,
   (pad_set_threshold_clamps 2147483647 (mkContext 3 [7, 8, 9] [])
      ⟨0, [], [WriteOutcome.writeFail], []⟩ 0 5000 (by decide)).1 (by decide),
   (pad_set_threshold_clamps 2147483647 (mkContext 3 [7, 8, 9] [])
      ⟨0, [], [WriteOutcome.writeFail], []⟩ 0 5000 (by decide)).2.2.1⟩

/-- C7 fails as stated: with three sensors, `pad_set_threshold` for sensor 5 returns 0, stores
100 in `thresholds[5]` and hands `"5 100\n"` to the port. -/
theorem pad_set_threshold_beyond_sensors :
    Outcome.retOf (pad_set_threshold 2147483647 (mkContext 3 [] []) (quiet 0) 5 100) = some 0
    ∧ Outcome.thresholdsOf (pad_set_threshold 2147483647 (mkContext 3 [] []) (quiet 0) 5 100) 6
        = some [0, 0, 0, 0, 0, 100]
    ∧ Outcome.sentOf (pad_set_threshold 2147483647 (mkContext 3 [] []) (quiet 0) 5 100)
        = some [bytes "5 100\n"] := by
  decide

/-- C7, as the code has it: `pad_set_threshold` compares its target with nothing.  For every
index inside the 64-entry array, whatever `ctx.sensors` is, every call first stores the
clamped value in `thresholds[index]`, a store that changes no other threshold, no value and
not the sensor count, and then hands the command to the port: the call is the return of 1 on
that store when the write fails, and the read phase run on that store when it succeeds.  A
call that returns has handed the command to the port and returns non-zero exactly when the
serial write failed.  On return the slot holds the clamped value and every other threshold is
as before, unless the report absorbed after a successful write is a thresholds report (tag
`'t'`); and the call does return when the write fails or nothing arrives on the port. -/
theorem pad_set_threshold_unchecked (longMax : Nat) (ctx : context) (w : World)
    (sensor value : Int) (hs : 0 ≤ sensor ∧ sensor < (SENSORS_MAX : Int)) :
    (pad_set_threshold longMax ctx w sensor value
        = if (pad_serial_write_cmd w (set_command sensor (max 0 (min 1023 value)))).1 ≠ 0 then
            Except.ok ⟨1, storeSlot ctx Target.thresholds sensor.toNat (max 0 (min 1023 value)),
              (pad_serial_write_cmd w (set_command sensor (max 0 (min 1023 value)))).2⟩
          else
            match pad_read_parse_values longMax
                (storeSlot ctx Target.thresholds sensor.toNat (max 0 (min 1023 value)))
                (pad_serial_write_cmd w (set_command sensor (max 0 (min 1023 value)))).2 with
            | Except.ok r => Except.ok ⟨0, r.ctx, r.w⟩
            | Except.error f => Except.error f)
    ∧ ((storeSlot ctx Target.thresholds sensor.toNat (max 0 (min 1023 value))).thresholds
          sensor.toNat = max 0 (min 1023 value)
      ∧ (∀ j, j ≠ sensor.toNat →
          (storeSlot ctx Target.thresholds sensor.toNat (max 0 (min 1023 value))).thresholds j
            = ctx.thresholds j)
      ∧ (∀ j, (storeSlot ctx Target.thresholds sensor.toNat (max 0 (min 1023 value))).values j
            = ctx.values j)
      ∧ (storeSlot ctx Target.thresholds sensor.toNat (max 0 (min 1023 value))).sensors
            = ctx.sensors)
    ∧ (∀ r, pad_set_threshold longMax ctx w sensor value = Except.ok r →
        (r.ret ≠ 0 ↔ (pad_serial_write_cmd w (set_command sensor (max 0 (min 1023 value)))).1 ≠ 0)
        ∧ r.w.sent = w.sent ++ [set_command sensor (max 0 (min 1023 value))])
    ∧ ((pad_serial_write_cmd w (set_command sensor (max 0 (min 1023 value)))).1 ≠ 0
          ∨ pendingTag w ≠ 116 →
        ∀ r, pad_set_threshold longMax ctx w sensor value = Except.ok r →
          r.ctx.thresholds sensor.toNat = max 0 (min 1023 value)
          ∧ (∀ j, j ≠ sensor.toNat → r.ctx.thresholds j = ctx.thresholds j))
    ∧ ((pad_serial_write_cmd w (set_command sensor (max 0 (min 1023 value)))).1 ≠ 0
          ∨ w.reads = [] →
        ∃ r, pad_set_threshold longMax ctx w sensor value = Except.ok r
          ∧ r.ctx.thresholds sensor.toNat = max 0 (min 1023 value)
          ∧ (∀ j, j ≠ sensor.toNat → r.ctx.thresholds j = ctx.thresholds j)) := by
  refine ⟨pad_set_threshold_eq longMax ctx w sensor value hs,
    ⟨storeSlot_thresholds_same _ _ _, fun j hj => storeSlot_thresholds_other _ _ _ _ hj,
      fun _ => rfl, rfl⟩, ?_, ?_, ?_⟩
  · intro r h
    refine ⟨?_, pad_set_threshold_sent longMax ctx w sensor value r h⟩
    rw [pad_set_threshold_eq longMax ctx w sensor value hs] at h
    split_ifs at h with h1
    · simp only [Except.ok.injEq] at h
      rw [← h]
      simp [h1]
    · split at h
      · simp only [Except.ok.injEq] at h
        rw [← h]
        simp [h1]
      · exact absurd h (by simp)
  · intro hc r h
    rw [pad_set_threshold_eq longMax ctx w sensor value hs] at h
    by_cases h1 : (pad_serial_write_cmd w (set_command sensor (max 0 (min 1023 value)))).1 ≠ 0
    · rw [if_pos h1] at h
      simp only [Except.ok.injEq] at h
      rw [← h]
      exact ⟨storeSlot_thresholds_same _ _ _,
        fun j hj => storeSlot_thresholds_other _ _ _ _ hj⟩
    · rw [if_neg h1] at h
      have ht : pendingTag w ≠ 116 := by
        rcases hc with hc | hc
        · exact absurd hc h1
        · exact hc
      split at h
      · rename_i r1 hr1
        simp only [Except.ok.injEq] at h
        rw [← h]
        simp only
        have hk := pad_read_parse_values_thresholds_kept longMax _ _ r1
          (by rw [pad_serial_write_cmd_pendingTag]; exact ht) hr1
        refine ⟨?_, fun j hj => ?_⟩
        · rw [hk]
          exact storeSlot_thresholds_same _ _ _
        · rw [hk]
          exact storeSlot_thresholds_other _ _ _ _ hj
      · exact absurd h (by simp)
  · intro h
    rcases h with h1 | hq
    · rw [pad_set_threshold_eq longMax ctx w sensor value hs, if_pos h1]
      exact ⟨_, rfl, storeSlot_thresholds_same _ _ _,
        fun j hj => storeSlot_thresholds_other _ _ _ _ hj⟩
    · rw [pad_set_threshold_quiet longMax ctx w sensor value hs hq]
      exact ⟨_, rfl, storeSlot_thresholds_same _ _ _,
        fun j hj => storeSlot_thresholds_other _ _ _ _ hj⟩

/-- C7 as the code has it, on sensor 5 of a pad with three sensors: with nothing arriving on
the port, and with the values report `"v 1\n"` pending after a successful write. -/
theorem pad_set_threshold_unchecked_witness :
    (∃ r, pad_set_threshold 2147483647 (mkContext 3 [] []) (quiet 0) 5 100 = Except.ok r
      ∧ r.ctx.thresholds 5 = 100
      ∧ (∀ j, j ≠ 5 → r.ctx.thresholds j = (mkContext 3 [] []).thresholds j))
    ∧ (∀ r, pad_set_threshold 2147483647 (mkContext 3 [7, 8, 9] [])
          ⟨0, [Read.data (bytes "v 1\n")], [], []⟩ 5 100 = Except.ok r →
        r.ctx.thresholds 5 = 100
        ∧ (∀ j, j ≠ 5 → r.ctx.thresholds j = (mkContext 3 [7, 8, 9] []).thresholds j))
    ∧ Outcome.thresholdsOf (pad_set_threshold 2147483647 (mkContext 3 [7, 8, 9] [])
          ⟨0, [Read.data (bytes "v 1\n")], [], []⟩ 5 100) 6 = some [7, 8, 9, 0, 0, 100]
    ∧ Outcome.retOf (pad_set_threshold 2147483647 (mkContext 3 [7, 8, 9] [])
          ⟨0, [Read.data (bytes "v 1\n")], [], []⟩ 5 100) = some 0 :=
  ⟨(pad_set_threshold_unchecked 2147483647 (mkContext 3 [] []) (quiet 0) 5 100
      (by decide)).2.2.2.2 (Or.inr rfl),
   (pad_set_threshold_unchecked 2147483647 (mkContext 3 [7, 8, 9] [])
      ⟨0, [Read.data (bytes "v 1\n")], [], []⟩ 5 100 (by decide)).2.2.2.1
      (Or.inr (by decide)),
   by decide, by decide⟩

/-! ## Theorems on start-up and on line accumulation -/

set_option maxRecDepth 100000 in
/-- C8 fails on the code: `main` adopts whatever count the first report gives.  For the
report `"v 1 1 ... 1\n"` with 65 numbers (132 bytes) `ctx.sensors` becomes 65, above
`SENSORS_MAX`; a thresholds report with 65 numbers is then stored with `size = 65`, and its
last store goes to `thresholds[64]`, outside the array. -/
theorem main_startup_adopts_65 :
    adoptedSensors (main_startup 2147483647
      ⟨0, [Read.data (118 :: (List.replicate 65 [32, 49]).flatten ++ [10])], [], []⟩) = some 65
    ∧ faultOf
        (match main_startup 2147483647
            ⟨0, [Read.data (118 :: (List.replicate 65 [32, 49]).flatten ++ [10]),
                 Read.data (116 :: (List.replicate 65 [32, 49]).flatten ++ [10])], [], []⟩ with
          | Except.ok (some ctx, w) => pad_get_values 2147483647 ctx w true
          | Except.ok (none, w) => Except.ok ⟨0, ctx0, w⟩
          | Except.error f => Except.error f) = some (Fault.destIndex 64) := by
  decide

set_option maxRecDepth 100000 in
/-- C9 fails on the code: a read that fills the chunk buffer makes `buf[bytes] = 0` write
`buf[256]`; a failed read makes it write `buf[-1]`; and a line of 256 bytes other than `'\n'`
(here in two reads of 128) followed by `'\n'` makes `report[count] = '\n'` write
`report[256]`. -/
theorem pad_read_parse_values_out_of_bounds :
    faultOf (pad_read_parse_values 2147483647 (mkContext 3 [] [])
      ⟨0, [Read.data (List.replicate 256 97)], [], []⟩) = some (Fault.bufIndex 256)
    ∧ faultOf (pad_read_parse_values 2147483647 (mkContext 3 [] [])
      ⟨0, [Read.err 0], [], []⟩) = some (Fault.bufIndex (-1))
    ∧ faultOf (pad_read_parse_values 2147483647 (mkContext 3 [] [])
      ⟨0, [Read.data (List.replicate 128 97), Read.data (List.replicate 128 97),
           Read.data [10]], [], []⟩) = some (Fault.reportIndex 256) := by
  decide

/-! ## Lemmas on the profile codec -/

theorem fromLE32_le32 (n : Nat) (h : n < 4294967296) : fromLE32 (le32 n) = n := by
  simp only [fromLE32, le32, List.getD_cons_zero, List.getD_cons_succ]
  omega

theorem le32_length (n : Nat) : (le32 n).length = 4 := rfl

theorem toUInt32_lt (v : Int) : toUInt32 v < 4294967296 := by
  simp only [toUInt32]
  omega

theorem toInt32_toUInt32 (v : Int) (h : -2147483648 ≤ v ∧ v ≤ 2147483647) :
    toInt32 ((toUInt32 v : Nat) : Int) = v := by
  simp only [toInt32, toUInt32]
  omega

theorem read_thresholds_encoded (l : List Nat) (rest : List Nat)
    (hl : ∀ x ∈ l, x < 4294967296) :
    read_thresholds l.length (l.flatMap le32 ++ rest) = some l := by
  induction l with
  | nil => rfl
  | cons x xs ih =>
    have hx := hl x (List.mem_cons_self _ _)
    have hxs : ∀ y ∈ xs, y < 4294967296 := fun y hy => hl y (List.mem_cons_of_mem _ hy)
    have e : (x :: xs).flatMap le32 ++ rest = le32 x ++ (xs.flatMap le32 ++ rest) := by
      simp [List.flatMap_cons]
    have ht : (le32 x ++ (xs.flatMap le32 ++ rest)).take 4 = le32 x := by
      simp [le32]
    have hd : (le32 x ++ (xs.flatMap le32 ++ rest)).drop 4 = xs.flatMap le32 ++ rest := by
      simp [le32]
    rw [e, List.length_cons, read_thresholds, ht, hd, ih hxs]
    simp [le32_length, fromLE32_le32 x hx]

theorem read_thresholds_short (n : Nat) (f : List Nat) (h : f.length < 4 * n) :
    read_thresholds n f = none := by
  induction n generalizing f with
  | zero => omega
  | succ n ih =>
    rw [read_thresholds]
    by_cases h4 : (f.take 4).length ≠ 4
    · rw [if_pos h4]
    · rw [if_neg h4]
      have h5 : (f.drop 4).length < 4 * n := by
        simp only [List.length_take, ne_eq, not_not] at h4
        simp only [List.length_drop]
        omega
      rw [ih _ h5]
      rfl

theorem set_loop_sent (longMax : Nat) (ts : List Nat) (k : Nat) (ctx : context) (w : World)
    (r : context × World) (h : set_loop longMax ctx w (k : Int) ts = Except.ok r) :
    r.2.sent = w.sent ++ cmdsFrom k ts := by
  induction ts generalizing k ctx w with
  | nil =>
    simp only [set_loop, Except.ok.injEq] at h
    rw [← h]
    simp [cmdsFrom]
  | cons t ts ih =>
    simp only [set_loop] at h
    split at h
    · rename_i r1 hr1
      have h1 := pad_set_threshold_sent longMax ctx w k (toInt32 t) r1 hr1
      have h2 := ih (k + 1) r1.ctx r1.w (by exact_mod_cast h)
      rw [h2, h1]
      simp [cmdsFrom]
    · exact absurd h (by simp)

theorem set_loop_quiet (longMax : Nat) (ts : List Nat) (k : Nat) (ctx : context) (w : World)
    (hq : w.reads = []) (hk : k + ts.length ≤ SENSORS_MAX) :
    ∃ w1, set_loop longMax ctx w (k : Int) ts
      = Except.ok (storeList ctx Target.thresholds k
          (ts.map (fun (t : Nat) => max 0 (min 1023 (toInt32 (t : Int))))), w1) := by
  induction ts generalizing k ctx w with
  | nil => exact ⟨w, rfl⟩
  | cons t ts ih =>
    have hs : 0 ≤ (k : Int) ∧ (k : Int) < (SENSORS_MAX : Int) := by
      simp only [List.length_cons] at hk
      constructor
      · omega
      · exact_mod_cast (by omega : k < SENSORS_MAX)
    have h1 := pad_set_threshold_quiet longMax ctx w k (toInt32 t) hs hq
    have hq1 := (pad_serial_write_cmd_reads w
      (set_command k (max 0 (min 1023 (toInt32 t))))).trans hq
    obtain ⟨w1, h2⟩ := ih (k + 1)
      (storeSlot ctx Target.thresholds k (max 0 (min 1023 (toInt32 t))))
      (pad_serial_write_cmd w (set_command k (max 0 (min 1023 (toInt32 t))))).2 hq1
      (by simp only [List.length_cons] at hk; omega)
    refine ⟨w1, ?_⟩
    simp only [set_loop, h1, Int.toNat_ofNat, List.map_cons, storeList]
    exact_mod_cast h2

theorem cmdsFrom_range (g : Nat → Nat) (n k : Nat) :
    cmdsFrom k ((List.range n).map g)
      = (List.range n).map
          (fun i => set_command ((k + i : Nat) : Int) (max 0 (min 1023 (toInt32 (g i))))) := by
  induction n generalizing k g with
  | zero => rfl
  | succ n ih =>
    rw [List.range_succ_eq_map]
    simp only [List.map_cons, List.map_map, cmdsFrom]
    rw [ih (g ∘ Nat.succ) (k + 1)]
    simp only [Nat.add_zero, List.cons.injEq, true_and]
    apply List.map_congr_left
    intro i _
    simp only [Function.comp, Nat.succ_eq_add_one]
    rw [show k + 1 + i = k + (i + 1) by omega]

theorem profile_save_bytes (ctx : context) (errno : Nat) :
    (profile_save ctx errno (some true)).2.1 = some (savedBytes ctx) := rfl

theorem profile_load_saved (longMax : Nat) (saved live : context) (w : World)
    (hs : saved.sensors < 4294967296) (hlive : live.sensors = saved.sensors) :
    profile_load longMax live w (some (some (savedBytes saved)))
      = match set_loop longMax live w 0
          ((List.range (min saved.sensors SENSORS_MAX)).map
            (fun i => toUInt32 (saved.thresholds i))) with
        | Except.ok r => Except.ok ⟨0, r.1, r.2⟩
        | Except.error f => Except.error f := by
  have hmod : saved.sensors % 4294967296 = saved.sensors := Nat.mod_eq_of_lt hs
  have hbody : (List.range (min saved.sensors SENSORS_MAX)).flatMap
        (fun i => le32 (toUInt32 (saved.thresholds i)))
      = ((List.range (min saved.sensors SENSORS_MAX)).map
          (fun i => toUInt32 (saved.thresholds i))).flatMap le32 := by
    rw [List.flatMap_map]
  have hlen : ¬ (savedBytes saved).length < 8 := by
    simp [savedBytes, signature, bytes]
  have htake : (savedBytes saved).take 8 = signature := by
    simp [savedBytes, signature, bytes]
  have hdrop : (savedBytes saved).drop 8 = le32 saved.sensors ++
      ((List.range (min saved.sensors SENSORS_MAX)).map
        (fun i => toUInt32 (saved.thresholds i))).flatMap le32 := by
    rw [← hbody]
    simp [savedBytes, signature, bytes, hmod]
  have ht4 : ((savedBytes saved).drop 8).take 4 = le32 saved.sensors := by
    rw [hdrop]; simp [le32]
  have hd4 : ((savedBytes saved).drop 8).drop 4 =
      ((List.range (min saved.sensors SENSORS_MAX)).map
        (fun i => toUInt32 (saved.thresholds i))).flatMap le32 := by
    rw [hdrop]; simp [le32]
  have hread := read_thresholds_encoded
    ((List.range (min saved.sensors SENSORS_MAX)).map (fun i => toUInt32 (saved.thresholds i)))
    [] (by
      intro x hx
      obtain ⟨i, _, rfl⟩ := List.mem_map.mp hx
      exact toUInt32_lt _)
  simp only [List.length_map, List.length_range, List.append_nil] at hread
  simp only [profile_load, hlen, if_false, htake, ne_eq, not_true_eq_false, ht4, hd4,
    le32_length, fromLE32_le32 saved.sensors hs, hlive, hread]

/-! ## Theorems on the profile codec -/

/-- C4 fails as stated: a thresholds report `"t 5000\n"` puts 5000 in `thresholds[0]`; saving
that store and loading the bytes with the same sensor count returns 0, but the threshold
applied at index 0 is 1023 (the command is `"0 1023\n"`), not 5000. -/
theorem profile_round_trip_not_identical :
    thresholdsOf (pad_parse_values 2147483647 (mkContext 1 [] []) (bytes "t 5000\n") none 1 0) 1
      = some [5000]
    ∧ Outcome.retOf (profile_load 2147483647 (mkContext 1 [5000] []) (quiet 0)
        (some (profile_save (mkContext 1 [5000] []) 0 (some true)).2.1)) = some 0
    ∧ Outcome.thresholdsOf (profile_load 2147483647 (mkContext 1 [5000] []) (quiet 0)
        (some (profile_save (mkContext 1 [5000] []) 0 (some true)).2.1)) 1 = some [1023]
    ∧ Outcome.sentOf (profile_load 2147483647 (mkContext 1 [5000] []) (quiet 0)
        (some (profile_save (mkContext 1 [5000] []) 0 (some true)).2.1))
      = some [bytes "0 1023\n"] := by
  decide

/-- C4, as the code has it: for a store `saved` with `int` thresholds, loading the bytes
`profile_save` writes for it into a store with the same sensor count applies, at each index
`i < min sensors SENSORS_MAX`, the threshold `max 0 (min 1023 (saved.thresholds i))`, which
is `saved.thresholds i` itself when that lies in `0..1023`.  Every load that returns has
returned 0 after handing exactly the commands `"<i> <clamped threshold>\n"`, in index order,
to the port; and when nothing arrives on the port the load returns 0 with these values in
`thresholds`. -/
theorem profile_round_trip_clamped (longMax : Nat) (saved live : context) (w : World)
    (errno : Nat) (hs : saved.sensors < 4294967296) (hlive : live.sensors = saved.sensors)
    (hint : ∀ i, i < min saved.sensors SENSORS_MAX →
      -2147483648 ≤ saved.thresholds i ∧ saved.thresholds i ≤ 2147483647) :
    (∀ r, profile_load longMax live w (some (profile_save saved errno (some true)).2.1)
        = Except.ok r →
      r.ret = 0 ∧ r.w.sent = w.sent ++ (List.range (min saved.sensors SENSORS_MAX)).map
        (fun (i : Nat) => set_command (i : Int) (max 0 (min 1023 (saved.thresholds i)))))
    ∧ (w.reads = [] →
      ∃ r, profile_load longMax live w (some (profile_save saved errno (some true)).2.1)
          = Except.ok r
        ∧ r.ret = 0
        ∧ (∀ i, i < min saved.sensors SENSORS_MAX →
            r.ctx.thresholds i = max 0 (min 1023 (saved.thresholds i)))
        ∧ (∀ i, i < min saved.sensors SENSORS_MAX →
            0 ≤ saved.thresholds i ∧ saved.thresholds i ≤ 1023 →
            r.ctx.thresholds i = saved.thresholds i)) := by
  rw [profile_save_bytes, profile_load_saved longMax saved live w hs hlive]
  refine ⟨?_, ?_⟩
  · intro r h
    split at h
    · rename_i r1 hr1
      simp only [Except.ok.injEq] at h
      have h1 := set_loop_sent longMax _ 0 live w r1 (by simpa using hr1)
      rw [cmdsFrom_range] at h1
      rw [← h]
      refine ⟨rfl, ?_⟩
      simp only
      rw [h1]
      congr 1
      apply List.map_congr_left
      intro i hi
      rw [List.mem_range] at hi
      simp only [Nat.zero_add]
      rw [toInt32_toUInt32 _ (hint i hi)]
    · exact absurd h (by simp)
  · intro hq
    have hlen : (((List.range (min saved.sensors SENSORS_MAX)).map
        (fun i => toUInt32 (saved.thresholds i))).map
          (fun (t : Nat) => max 0 (min 1023 (toInt32 (t : Int))))).length
        = min saved.sensors SENSORS_MAX := by
      rw [List.length_map, List.length_map, List.length_range]
    obtain ⟨w1, h1⟩ := set_loop_quiet longMax
      ((List.range (min saved.sensors SENSORS_MAX)).map (fun i => toUInt32 (saved.thresholds i)))
      0 live w hq (by
        rw [List.length_map, List.length_range, Nat.zero_add]
        exact Nat.min_le_right _ _)
    rw [Nat.cast_zero] at h1
    rw [h1]
    have key : ∀ i, i < min saved.sensors SENSORS_MAX →
        (storeList live Target.thresholds 0
          (((List.range (min saved.sensors SENSORS_MAX)).map
            (fun i => toUInt32 (saved.thresholds i))).map
              (fun (t : Nat) => max 0 (min 1023 (toInt32 (t : Int)))))).thresholds i
          = max 0 (min 1023 (saved.thresholds i)) := by
      intro i hi
      have h3 := storeList_inside live Target.thresholds 0
        (((List.range (min saved.sensors SENSORS_MAX)).map
            (fun i => toUInt32 (saved.thresholds i))).map
              (fun (t : Nat) => max 0 (min 1023 (toInt32 (t : Int))))) i (by rw [hlen]; exact hi)
      rw [Nat.zero_add] at h3
      have h4 : arrOf Target.thresholds (storeList live Target.thresholds 0
          (((List.range (min saved.sensors SENSORS_MAX)).map
            (fun i => toUInt32 (saved.thresholds i))).map
              (fun (t : Nat) => max 0 (min 1023 (toInt32 (t : Int)))))) i
          = (storeList live Target.thresholds 0
          (((List.range (min saved.sensors SENSORS_MAX)).map
            (fun i => toUInt32 (saved.thresholds i))).map
              (fun (t : Nat) => max 0 (min 1023 (toInt32 (t : Int)))))).thresholds i := rfl
      rw [← h4, h3, List.getD_eq_getElem?_getD, List.getElem?_map, List.getElem?_map,
        List.getElem?_range hi]
      rw [Option.map_some', Option.map_some', Option.getD_some, toInt32_toUInt32 _ (hint i hi)]
    refine ⟨_, rfl, rfl, key, ?_⟩
    intro i hi hr
    rw [key i hi]
    omega

/-- C4 as the code has it, on a store with thresholds `[500, 5000, -5]`. -/
theorem profile_round_trip_clamped_witness :
    ∃ r, profile_load 2147483647 (mkContext 3 [] []) (quiet 0)
        (some (profile_save (mkContext 3 [500, 5000, -5] []) 0 (some true)).2.1) = Except.ok r
      ∧ r.ret = 0
      ∧ (∀ i, i < min 3 SENSORS_MAX → r.ctx.thresholds i
          = max 0 (min 1023 ((mkContext 3 [500, 5000, -5] []).thresholds i)))
      ∧ (∀ i, i < min 3 SENSORS_MAX →
          0 ≤ (mkContext 3 [500, 5000, -5] []).thresholds i
            ∧ (mkContext 3 [500, 5000, -5] []).thresholds i ≤ 1023 →
          r.ctx.thresholds i = (mkContext 3 [500, 5000, -5] []).thresholds i) :=
  (profile_round_trip_clamped 2147483647 (mkContext 3 [500, 5000, -5] []) (mkContext 3 [] [])
    (quiet 0) 0 (by decide) rfl (by
      intro i hi
      have hi3 : i < 3 := lt_of_lt_of_le hi (by decide)
      interval_cases i <;> decide)).2 rfl

set_option maxRecDepth 100000 in
/-- C5 fails as stated: with 65 live sensors, a profile with stored count 65 and 256 bytes of
threshold data (fewer than `4 * 65`) is accepted: `profile_load` returns 0, sends 64
set-threshold commands and changes the thresholds. -/
theorem profile_load_accepts_short_data :
    ((signature ++ le32 65 ++ (List.replicate 64 (le32 100)).flatten).drop 12).length < 4 * 65
    ∧ Outcome.retOf (profile_load 2147483647 (mkContext 65 [] []) (quiet 0)
        (some (some (signature ++ le32 65 ++ (List.replicate 64 (le32 100)).flatten)))) = some 0
    ∧ Outcome.thresholdsOf (profile_load 2147483647 (mkContext 65 [] []) (quiet 0)
        (some (some (signature ++ le32 65 ++ (List.replicate 64 (le32 100)).flatten)))) 2
      = some [100, 100]
    ∧ (Outcome.sentOf (profile_load 2147483647 (mkContext 65 [] []) (quiet 0)
        (some (some (signature ++ le32 65 ++ (List.replicate 64 (le32 100)).flatten))))).map
          List.length = some 64 := by
  decide

/-- C5, as the code has it: a profile of at least 8 bytes whose signature differs from
`"danspad "`, or whose 4-byte count field is incomplete, or whose stored count differs from
`ctx.sensors`, or which holds fewer than `4 * min count SENSORS_MAX` bytes of threshold data,
makes `profile_load` return a non-zero code with the context and the world as they were: no
threshold is changed and no command is sent. -/
theorem profile_load_rejects (longMax : Nat) (ctx : context) (w : World) (file : List Nat)
    (hlen : 8 ≤ file.length)
    (h : file.take 8 ≠ signature ∨ (file.drop 8).length < 4
      ∨ fromLE32 ((file.drop 8).take 4) ≠ ctx.sensors
      ∨ (file.drop 12).length < 4 * min (fromLE32 ((file.drop 8).take 4)) SENSORS_MAX) :
    ∃ code, code ≠ 0
      ∧ profile_load longMax ctx w (some (some file)) = Except.ok ⟨code, ctx, w⟩ := by
  have h8 : ¬ file.length < 8 := by omega
  simp only [profile_load, h8, if_false]
  by_cases h1 : file.take 8 ≠ signature
  · exact ⟨3, by decide, by rw [if_pos h1]⟩
  · rw [if_neg h1]
    by_cases h2 : ((file.drop 8).take 4).length ≠ 4
    · exact ⟨4, by decide, by rw [if_pos h2]⟩
    · rw [if_neg h2]
      by_cases h3 : fromLE32 ((file.drop 8).take 4) ≠ ctx.sensors
      · exact ⟨5, by decide, by rw [if_pos h3]⟩
      · rw [if_neg h3]
        have h4 : (file.drop 12).length < 4 * min (fromLE32 ((file.drop 8).take 4)) SENSORS_MAX := by
          rcases h with h | h | h | h
          · exact absurd h h1
          · exfalso
            apply h2
            simp only [List.length_take, List.length_drop] at h ⊢
            omega
          · exact absurd h h3
          · exact h
        have h5 : ((file.drop 8).drop 4) = file.drop 12 := by
          rw [List.drop_drop]
        rw [h5, read_thresholds_short _ _ h4]
        exact ⟨6, by decide, rfl⟩

/-- C5 as the code has it, on a profile with stored count 4 loaded with 3 live sensors. -/
theorem profile_load_rejects_witness :
    ∃ code, code ≠ 0
      ∧ profile_load 2147483647 (mkContext 3 [7, 8, 9] []) (quiet 0)
          (some (some (signature ++ le32 4 ++ le32 1 ++ le32 2 ++ le32 3 ++ le32 4)))
        = Except.ok ⟨code, mkContext 3 [7, 8, 9] [], quiet 0⟩ :=
  profile_load_rejects 2147483647 (mkContext 3 [7, 8, 9] []) (quiet 0)
    (signature ++ le32 4 ++ le32 1 ++ le32 2 ++ le32 3 ++ le32 4) (by decide)
    (Or.inr (Or.inr (Or.inl (by decide))))

end Danspad
